import Mathlib

/-!
Verification development for the LLFA (Local Lead Finder Agent) core:
identity normalization and fuzzy entity resolution (server/utils/normalize),
storage-level entity resolution and upsert (server/storage),
the scoring engine and search-tool validation (server/agent/tools),
and the mission orchestrator (server/agent, executeMission).

The embedding is a shallow one: TypeScript functions become Lean functions on
lists of characters / explicit state records.  JavaScript strings are modeled
as Lean `String` (`List Char` data); `string | null | undefined` becomes
`Option String`; JS truthiness of a string value (`null`, `undefined` and `""`
are falsy) is modeled by `jsTruthy`.  Character-level operations
(`toLowerCase`, `\w`, `\s`, `trim`) are modeled over ASCII code points, which
is the character range the program's data (hostnames, phone numbers, business
names, category keywords) lives in.
-/

namespace LLFA

/-! ### Character-level helpers (ASCII models of the JS string operations) -/

/-- ASCII model of `String.prototype.toLowerCase`: maps A-Z (65-90) to
a-z (97-122) and fixes every other character. -/
def charToLower (c : Char) : Char :=
  if 65 ≤ c.toNat ∧ c.toNat ≤ 90 then Char.ofNat (c.toNat + 32) else c

/-- Whitespace as matched by the JS `\s` class and `String.prototype.trim`
(ASCII part: tab, LF, VT, FF, CR, space). -/
def isSpaceChar (c : Char) : Bool :=
  c.toNat = 9 || c.toNat = 10 || c.toNat = 11 || c.toNat = 12 || c.toNat = 13 || c.toNat = 32

/-- The JS `\w` class: `[A-Za-z0-9_]`. -/
def isWordChar (c : Char) : Bool :=
  (48 ≤ c.toNat && c.toNat ≤ 57) || (65 ≤ c.toNat && c.toNat ≤ 90) ||
    (97 ≤ c.toNat && c.toNat ≤ 122) || c.toNat = 95

/-- The JS `\d` class / `\D` complement: `[0-9]`. -/
def isDigitChar (c : Char) : Bool :=
  48 ≤ c.toNat && c.toNat ≤ 57

/-- `String.prototype.trim`, on the character list. -/
def trimList (cs : List Char) : List Char :=
  ((cs.dropWhile isSpaceChar).reverse.dropWhile isSpaceChar).reverse

/-- `String.prototype.trim`. -/
def jsTrim (s : String) : String :=
  String.mk (trimList s.data)

/-- Lower-case an entire string (model of `toLowerCase`). -/
def strToLower (s : String) : String :=
  String.mk (s.data.map charToLower)

/-- JS truthiness of a `string | null | undefined` value: `null`, `undefined`
and the empty string are falsy. -/
def jsTruthy : Option String → Bool
  | none => false
  | some s => !s.data.isEmpty

/-- Does `haystack` start with `needle`? -/
def startsWithList : List Char → List Char → Bool
  | [], _ => true
  | _ :: _, [] => false
  | x :: xs, y :: ys => x == y && startsWithList xs ys

/-- Does `needle` occur as a contiguous run inside `haystack`? -/
def infixOfList (needle : List Char) : List Char → Bool
  | [] => needle.isEmpty
  | y :: ys => startsWithList needle (y :: ys) || infixOfList needle ys

/-- `haystack.includes(needle)`: substring containment. -/
def containsSub (haystack needle : String) : Bool :=
  infixOfList needle.data haystack.data

/-- Case-insensitive substring containment, modeling a SQL
`ilike '%needle%'` filter on a stored text column. -/
def containsCI (haystack needle : String) : Bool :=
  infixOfList (needle.data.map charToLower) (haystack.data.map charToLower)

/-! ### Identity Normalizer (server/utils/normalize.ts) -/

/-- `normalizePhone(phone)`: strips non-digits; 10 digits get a `+1` prefix,
11 digits starting with `1` and any 10-15 digit string get a `+` prefix;
anything else (after the falsy/blank guard) is `null`. -/
def normalizePhone (phone : Option String) : Option String :=
  match phone with
  | none => none
  | some p =>
    if p.data.isEmpty || (trimList p.data).isEmpty then none
    else
      let digits := p.data.filter isDigitChar
      if digits.length = 10 then
        some (String.mk ('+' :: '1' :: digits))
      else if digits.length = 11 && digits.head? == some '1' then
        some (String.mk ('+' :: digits))
      else if 10 ≤ digits.length && digits.length ≤ 15 then
        some (String.mk ('+' :: digits))
      else
        none

/-- Collapse every run of adjacent spaces to a single space (the effect of
`replace(/\s+/g, " ")` after whitespace has been canonicalized to `' '`). -/
def squeezeSpaces : List Char → List Char
  | [] => []
  | [c] => [c]
  | a :: b :: rest =>
    if a = ' ' && b = ' ' then squeezeSpaces (b :: rest)
    else a :: squeezeSpaces (b :: rest)

/-- `normalizeName(name)`: lower-case, strip `[^\w\s]`, collapse whitespace
runs to single spaces, trim. -/
def normalizeName (name : String) : String :=
  let lowered := name.data.map charToLower
  let kept := lowered.filter (fun c => isWordChar c || isSpaceChar c)
  let collapsed := squeezeSpaces (kept.map (fun c => if isSpaceChar c then ' ' else c))
  String.mk (trimList collapsed)

/-- One inner cell pass of the Levenshtein dynamic-programming matrix:
given the current row character `c` (from `b`), the remaining characters of
`a`, the previous row starting at the diagonal cell, and the cell value to the
left, produce the rest of the current row. -/
def levRow (c : Char) : List Char → List Nat → Nat → List Nat
  | x :: xs, diag :: rest, left =>
    let up := rest.headD 0
    let v := if c = x then diag else Nat.min (diag + 1) (Nat.min (left + 1) (up + 1))
    v :: levRow c xs rest v
  | _, _, _ => []

/-- `levenshteinDistance(a, b)`: the standard dynamic-programming matrix,
built row by row; row 0 is `[0..a.length]`, row `i` starts with `i`, and the
answer is the last cell of the last row. -/
def levenshteinDistance (a b : String) : Nat :=
  let cols := a.data
  let row0 := List.range (cols.length + 1)
  let final := b.data.foldl
    (fun (st : List Nat × Nat) c =>
      let i := st.2 + 1
      (i :: levRow c cols st.1 i, i))
    (row0, 0)
  final.1.getLastD 0

/-- `nameSimilarity(name1, name2)`: 1 on equal normalized names (and on the
empty-vs-empty degenerate case), otherwise one minus edit distance over max
length, as an exact rational (idealizing the JS float arithmetic). -/
def nameSimilarity (name1 name2 : String) : ℚ :=
  let n1 := normalizeName name1
  let n2 := normalizeName name2
  if n1 = n2 then 1
  else
    let maxLen := Nat.max n1.data.length n2.data.length
    if maxLen = 0 then 1
    else 1 - (levenshteinDistance n1 n2 : ℚ) / (maxLen : ℚ)

/-- The lead-shaped record `isFuzzyMatch` compares (name plus optional city
and normalized phone). -/
structure FuzzyLead where
  name : String
  city : Option String := none
  normalizedPhone : Option String := none
deriving DecidableEq

/-- `isFuzzyMatch(lead1, lead2, threshold = 0.85)`: true immediately on equal
truthy normalized phones; false immediately on truthy cities that differ
case-insensitively; otherwise name similarity against the threshold. -/
def isFuzzyMatch (lead1 lead2 : FuzzyLead) (threshold : ℚ := 85 / 100) : Bool :=
  if jsTruthy lead1.normalizedPhone && jsTruthy lead2.normalizedPhone &&
      lead1.normalizedPhone == lead2.normalizedPhone then
    true
  else if jsTruthy lead1.city && jsTruthy lead2.city &&
      !(strToLower (lead1.city.getD "") == strToLower (lead2.city.getD "")) then
    false
  else
    decide (threshold ≤ nameSimilarity lead1.name lead2.name)

/-! ### `normalizeDomain` (server/utils/normalize.ts)

`normalizeDomain` calls the platform URL constructor.  `urlHostname` models
the WHATWG parser's hostname extraction for `http(s)` URLs over the ASCII
subset the program works with: the text after the scheme up to the first
`/`, `?` or `#` is the authority, the part after its last `@` is host:port,
the host ends at the first `:`, and the lower-cased host must be non-empty
and consist of hostname characters (`a-z`, `0-9`, `-`, `.`, `_`), otherwise
the constructor throws (modeled as `none`, which sends `normalizeDomain`
into its regex fallback). -/

/-- Characters admitted in a parsed hostname (lower-case letters, digits,
`-` 45, `.` 46, `_` 95). -/
def hostChar (c : Char) : Bool :=
  (97 ≤ c.toNat && c.toNat ≤ 122) || (48 ≤ c.toNat && c.toNat ≤ 57) ||
    c.toNat = 45 || c.toNat = 46 || c.toNat = 95

/-- `/`, `?` or `#`: ends the authority component. -/
def authorityEnd (c : Char) : Bool :=
  c.toNat = 47 || c.toNat = 63 || c.toNat = 35

/-- Case-insensitive match of the regex `^https?:\/\//` used by
`normalizeDomain`: returns the text after the scheme, or `none`. -/
def dropScheme (cs : List Char) : Option (List Char) :=
  if startsWithList ['h','t','t','p','s',':','/','/'] (cs.map charToLower) then
    some (cs.drop 8)
  else if startsWithList ['h','t','t','p',':','/','/'] (cs.map charToLower) then
    some (cs.drop 7)
  else
    none

/-- The host:port part of an authority: everything after the last `@`. -/
def afterLastAt (cs : List Char) : List Char :=
  (cs.reverse.takeWhile (fun c => c.toNat ≠ 64)).reverse

/-- `new URL(cleanUrl).hostname.toLowerCase()` for a URL that carries an
explicit `http(s)` scheme; `none` models the constructor throwing. -/
def urlHostname (cleanUrl : String) : Option String :=
  match dropScheme cleanUrl.data with
  | none => none
  | some rest =>
    let authority := rest.takeWhile (fun c => !authorityEnd c)
    let hostPort := afterLastAt authority
    let host := hostPort.takeWhile (fun c => c.toNat ≠ 58)
    let low := host.map charToLower
    if low.isEmpty then none
    else if low.all hostChar then some (String.mk low)
    else none

/-- A character of the regex class `[-a-zA-Z0-9]` (label body). -/
def labelChar (c : Char) : Bool :=
  (48 ≤ c.toNat && c.toNat ≤ 57) || (65 ≤ c.toNat && c.toNat ≤ 90) ||
    (97 ≤ c.toNat && c.toNat ≤ 122) || c.toNat = 45

/-- A character of the regex class `[a-zA-Z0-9]` (label start). -/
def alnumChar (c : Char) : Bool :=
  (48 ≤ c.toNat && c.toNat ≤ 57) || (65 ≤ c.toNat && c.toNat ≤ 90) ||
    (97 ≤ c.toNat && c.toNat ≤ 122)

/-- Match `[a-zA-Z0-9][-a-zA-Z0-9]*` at the head of the input; returns the
matched label and the rest.  The match is greedy; since `.` is not a label
character no backtracking can ever shorten it. -/
def matchLabel : List Char → Option (List Char × List Char)
  | [] => none
  | c :: rest =>
    if alnumChar c then some (c :: rest.takeWhile labelChar, rest.dropWhile labelChar)
    else none

/-- Greedily match `(?:\.[a-zA-Z0-9][-a-zA-Z0-9]*)*` (zero or more dot-label
groups); returns the matched text and the rest.  Fuel is the input length. -/
def dotLabels : Nat → List Char → List Char × List Char
  | 0, cs => ([], cs)
  | fuel + 1, cs =>
    match cs with
    | c :: rest =>
      if c.toNat = 46 then
        match matchLabel rest with
        | some (lab, rem) =>
          let step := dotLabels fuel rem
          (c :: (lab ++ step.1), step.2)
        | none => ([], cs)
      else ([], cs)
    | [] => ([], cs)

/-- Match the capture group
`([a-zA-Z0-9][-a-zA-Z0-9]*(?:\.[a-zA-Z0-9][-a-zA-Z0-9]*)+)` at the head of
the input (at least one dot-label required). -/
def matchDomainCore (cs : List Char) : Option (List Char) :=
  match matchLabel cs with
  | none => none
  | some (lab, rem) =>
    let step := dotLabels rem.length rem
    if step.1.isEmpty then none else some (lab ++ step.1)

/-- Case-insensitive match of the optional `(?:www\.)?` group. -/
def dropWww (cs : List Char) : Option (List Char) :=
  if startsWithList ['w','w','w','.'] (cs.map charToLower) then some (cs.drop 4)
  else none

/-- Attempt the fallback regex at one position, honoring the backtracking
order of the two optional prefixes: scheme+www, scheme only, www only,
neither. -/
def tryFallbackAt (cs : List Char) : Option (List Char) :=
  let attempt := fun (ds : List Char) =>
    (match dropWww ds with
      | some tail => matchDomainCore tail
      | none => none).orElse (fun _ => matchDomainCore ds)
  match dropScheme cs with
  | some rest => (attempt rest).orElse (fun _ => attempt cs)
  | none => attempt cs

/-- Leftmost match of the fallback regex: scan start positions left to
right. -/
def scanFallback : List Char → Option (List Char)
  | [] => none
  | c :: rest => (tryFallbackAt (c :: rest)).orElse (fun _ => scanFallback rest)

/-- The `catch` branch of `normalizeDomain`: run the permissive hostname
regex on the raw input and lower-case the captured group. -/
def fallbackExtract (url : String) : Option String :=
  match scanFallback url.data with
  | some core => some (String.mk (core.map charToLower))
  | none => none

/-- `normalizeDomain(url)`: trim; reject falsy/blank; ensure a scheme; parse
as a URL and take the lower-cased hostname; strip one leading `www.`; reject
empty or `localhost`; on URL parse failure fall back to the permissive
regex. -/
def normalizeDomain (url : Option String) : Option String :=
  match url with
  | none => none
  | some u =>
    if u.data.isEmpty || (trimList u.data).isEmpty then none
    else
      let cleanUrl :=
        if (dropScheme (trimList u.data)).isSome then trimList u.data
        else ('h' :: 't' :: 't' :: 'p' :: 's' :: ':' :: '/' :: '/' :: trimList u.data)
      match urlHostname (String.mk cleanUrl) with
      | some hostname =>
        let stripped :=
          if startsWithList ['w','w','w','.'] hostname.data then
            String.mk (hostname.data.drop 4)
          else hostname
        if stripped.data.isEmpty || stripped = "localhost" then none
        else some stripped
      | none => fallbackExtract u

/-! ### Data model (shared/schema.ts) and storage (server/storage.ts)

The persistent store is modeled as an in-memory list of rows in insertion
order plus an id counter; a `select ... where ... limit n` becomes
`(rows.filter ...).take n`, and a `select ... where ... limit 1` becomes
`rows.find? ...`.  Row timestamps (`createdAt` / `updatedAt`) are pure
bookkeeping and are not modeled. -/

/-- A row of the `leads` table. -/
structure Lead where
  id : Nat
  name : String
  domain : Option String := none
  canonicalDomain : Option String := none
  normalizedPhone : Option String := none
  phone : Option String := none
  email : Option String := none
  address : Option String := none
  city : Option String := none
  state : Option String := none
  latitude : Option String := none
  longitude : Option String := none
  category : String
  source : String
  placeId : Option String := none
  status : String := "new"
deriving DecidableEq

/-- The `InsertLead` payload (insert schema: no id, no timestamps; status is
optional and defaults to `"new"` in the database). -/
structure InsertLead where
  name : String
  domain : Option String := none
  phone : Option String := none
  email : Option String := none
  address : Option String := none
  city : Option String := none
  state : Option String := none
  latitude : Option String := none
  longitude : Option String := none
  category : String
  source : String
  placeId : Option String := none
  status : Option String := none
deriving DecidableEq

/-- The `leads` table plus its id generator. -/
structure Store where
  rows : List Lead := []
  nextId : Nat := 0
deriving DecidableEq

/-- The criteria record taken by `findExistingLead`. -/
structure Criteria where
  placeId : Option String := none
  domain : Option String := none
  phone : Option String := none
  name : Option String := none
  city : Option String := none
deriving DecidableEq

/-- `x || undefined`: JS falsy-to-undefined coercion used when building the
`findExistingLead` criteria inside `upsertLead`. -/
def orUndef (o : Option String) : Option String :=
  match o with
  | some s => if s.data.isEmpty then none else some s
  | none => none

/-- `DatabaseStorage.findExistingLead(criteria)`: the four-stage duplicate
lookup, translated clause by clause from the source.  Each `select ...
where eq(col, v) limit 1` becomes a `find?` over the rows; the phone and
name+city stages filter with a row limit and scan the fetched candidates
with `isFuzzyMatch`. -/
def findExistingLead (store : List Lead) (criteria : Criteria) : Option Lead :=
  let canonicalDomain := normalizeDomain criteria.domain
  let normalizedPhone := normalizePhone criteria.phone
  let byPlaceId :=
    if jsTruthy criteria.placeId then
      store.find? (fun l => l.placeId == criteria.placeId)
    else none
  match byPlaceId with
  | some l => some l
  | none =>
    let byDomain :=
      if jsTruthy canonicalDomain then
        store.find? (fun l => l.canonicalDomain == canonicalDomain)
      else none
    match byDomain with
    | some l => some l
    | none =>
      let byPhone :=
        if jsTruthy normalizedPhone && jsTruthy criteria.name then
          ((store.filter (fun l => l.normalizedPhone == normalizedPhone)).take 10).find?
            (fun candidate =>
              isFuzzyMatch
                ⟨criteria.name.getD "", criteria.city, normalizedPhone⟩
                ⟨candidate.name, candidate.city, candidate.normalizedPhone⟩)
        else none
      match byPhone with
      | some l => some l
      | none =>
        if jsTruthy criteria.name && jsTruthy criteria.city then
          let name := criteria.name.getD ""
          let city := criteria.city.getD ""
          let namePattern := String.mk (name.data.take (Nat.min 10 name.data.length))
          ((store.filter (fun l =>
              (match l.city with
                | some ct => containsCI ct city
                | none => false) &&
              containsCI l.name namePattern)).take 20).find?
            (fun candidate =>
              isFuzzyMatch
                ⟨name, criteria.city, normalizedPhone⟩
                ⟨candidate.name, candidate.city, candidate.normalizedPhone⟩)
        else none

/-- Result record of `upsertLead`. -/
structure UpsertResult where
  lead : Lead
  isNew : Bool
  wasUpdated : Bool
deriving DecidableEq

/-- The merged row written by `upsertLead` when a duplicate is found:
`name` is always overwritten; every other field keeps the stored value only
when the incoming one is nullish (`??`); the canonical fields are recomputed
from the incoming domain/phone when those normalize to non-null. -/
def mergeLead (existing : Lead) (ins : InsertLead)
    (canonicalDomain normalizedPhone : Option String) : Lead :=
  { existing with
    name := ins.name
    domain := ins.domain.orElse (fun _ => existing.domain)
    canonicalDomain := canonicalDomain.orElse (fun _ => existing.canonicalDomain)
    phone := ins.phone.orElse (fun _ => existing.phone)
    normalizedPhone := normalizedPhone.orElse (fun _ => existing.normalizedPhone)
    email := ins.email.orElse (fun _ => existing.email)
    address := ins.address.orElse (fun _ => existing.address)
    city := ins.city.orElse (fun _ => existing.city)
    state := ins.state.orElse (fun _ => existing.state)
    latitude := ins.latitude.orElse (fun _ => existing.latitude)
    longitude := ins.longitude.orElse (fun _ => existing.longitude)
    placeId := ins.placeId.orElse (fun _ => existing.placeId)
    category := ins.category
    source := ins.source
    status := ins.status.getD existing.status }

/-- `DatabaseStorage.upsertLead(insertLead)`: normalize domain/phone, resolve
via `findExistingLead`; on a match update the row in place and report
`isNew = false, wasUpdated = true`; otherwise insert a fresh row (with the
canonical fields attached and the database default `status = "new"` when none
is supplied) and report `isNew = true, wasUpdated = false`. -/
def upsertLead (st : Store) (ins : InsertLead) : UpsertResult × Store :=
  let canonicalDomain := normalizeDomain ins.domain
  let normalizedPhone := normalizePhone ins.phone
  let existing := findExistingLead st.rows
    { placeId := orUndef ins.placeId
      domain := orUndef ins.domain
      phone := orUndef ins.phone
      name := some ins.name
      city := orUndef ins.city }
  match existing with
  | some ex =>
    let updated := mergeLead ex ins canonicalDomain normalizedPhone
    (⟨updated, false, true⟩,
      { st with rows := st.rows.map (fun l => if l.id = ex.id then updated else l) })
  | none =>
    let created : Lead :=
      { id := st.nextId
        name := ins.name
        domain := ins.domain
        canonicalDomain := canonicalDomain
        normalizedPhone := normalizedPhone
        phone := ins.phone
        email := ins.email
        address := ins.address
        city := ins.city
        state := ins.state
        latitude := ins.latitude
        longitude := ins.longitude
        category := ins.category
        source := ins.source
        placeId := ins.placeId
        status := ins.status.getD "new" }
    (⟨created, true, false⟩, { rows := st.rows ++ [created], nextId := st.nextId + 1 })

/-- `getLeadsByPlaceIds`: bulk lookup by an external-id set. -/
def getLeadsByPlaceIds (store : List Lead) (placeIds : List String) : List Lead :=
  if placeIds.length = 0 then []
  else store.filter (fun l =>
    match l.placeId with
    | some pid => placeIds.contains pid
    | none => false)

/-- `getLeadsByDomainsOrPhones`: bulk lookup by canonical-domain set or
normalized-phone set. -/
def getLeadsByDomainsOrPhones (store : List Lead) (domains phones : List String) :
    List Lead :=
  if domains.length = 0 && phones.length = 0 then []
  else
    let byDomain := fun (l : Lead) =>
      match l.canonicalDomain with
      | some d => domains.contains d
      | none => false
    let byPhone := fun (l : Lead) =>
      match l.normalizedPhone with
      | some p => phones.contains p
      | none => false
    if domains.length > 0 && phones.length > 0 then
      store.filter (fun l => byDomain l || byPhone l)
    else if domains.length > 0 then
      store.filter byDomain
    else
      store.filter byPhone

/-! ### Site audit results and the scoring engine (server/agent/tools.ts) -/

/-- `AuditResult`: the technical snapshot produced by `auditSite`. -/
structure AuditResult where
  httpsOk : Bool
  mobileOk : Bool
  hasBooking : Bool
  schemaOk : Bool
  cmsHint : Option String := none
  lcpMs : Option Nat := none
  cls : Option Nat := none
  analyticsPixels : Option (List String) := none
deriving DecidableEq

/-- Contact info consumed by `scoreLead`. -/
structure ContactInfo where
  phone : Option String := none
  email : Option String := none
  website : Option String := none
deriving DecidableEq

/-- `ScoreResult`: three dimensions, total and the accumulated reasons. -/
structure ScoreResult where
  need : Nat
  value : Nat
  reachability : Nat
  total : Nat
  reasons : List String
deriving DecidableEq

/-- `Math.round(num / den)` for non-negative operands: round half up, i.e.
`⌊num/den + 1/2⌋ = (2*num + den) / (2*den)` in integer division. -/
def roundHalfUp (num den : Nat) : Nat :=
  (2 * num + den) / (2 * den)

/-- The fixed high-value industry list of `scoreLead`. -/
def highValueCategories : List String :=
  ["dentist", "doctor", "lawyer", "chiropractor", "medical", "health"]

/-- The fixed recognized CMS-hint list of `scoreLead`. -/
def validCmsHints : List String :=
  ["wordpress", "wix", "squarespace", "webflow", "shopify"]

/-- `scoreLead(businessName, auditResults, contactInfo, category)`: the pure
scoring engine.  Each deficiency/asset check adds its fixed weight and
appends its reason, in source order; `total` is the rounded mean of the
three dimensions. -/
def scoreLead (businessName : String) (auditResults : AuditResult)
    (contactInfo : ContactInfo) (category : String) : ScoreResult :=
  let reasons : List String := []
  let needScore : Nat := 0
  let needScore1 := if auditResults.httpsOk then needScore else needScore + 25
  let reasons1 := if auditResults.httpsOk then reasons
    else reasons ++ ["Missing HTTPS security"]
  let needScore2 := if auditResults.mobileOk then needScore1 else needScore1 + 25
  let reasons2 := if auditResults.mobileOk then reasons1
    else reasons1 ++ ["Not mobile optimized"]
  let needScore3 := if auditResults.hasBooking then needScore2 else needScore2 + 30
  let reasons3 := if auditResults.hasBooking then reasons2
    else reasons2 ++ ["No online booking system"]
  let needScore4 := if auditResults.schemaOk then needScore3 else needScore3 + 10
  let reasons4 := if auditResults.schemaOk then reasons3
    else reasons3 ++ ["Missing structured data"]
  let noPixels :=
    match auditResults.analyticsPixels with
    | none => true
    | some ps => ps.isEmpty
  let needScore5 := if noPixels then needScore4 + 10 else needScore4
  let reasons5 := if noPixels then reasons4 ++ ["No analytics tracking"] else reasons4
  let valueScore : Nat := 50
  let highValue := highValueCategories.any (fun cat => containsSub (strToLower category) cat)
  let valueScore1 := if highValue then valueScore + 30 else valueScore
  let reasons6 := if highValue then reasons5 ++ ["High-value industry"] else reasons5
  let knownCms := jsTruthy auditResults.cmsHint &&
    validCmsHints.contains (auditResults.cmsHint.getD "")
  let valueScore2 := if knownCms then valueScore1 + 20 else valueScore1
  let reasons7 := if knownCms then
      reasons6 ++ ["Uses " ++ auditResults.cmsHint.getD "" ++ " (easy to upgrade)"]
    else reasons6
  let reachabilityScore : Nat := 0
  let reachabilityScore1 := if jsTruthy contactInfo.phone then reachabilityScore + 40
    else reachabilityScore
  let reasons8 := if jsTruthy contactInfo.phone then reasons7 ++ ["Phone number available"]
    else reasons7
  let reachabilityScore2 := if jsTruthy contactInfo.email then reachabilityScore1 + 30
    else reachabilityScore1
  let reasons9 := if jsTruthy contactInfo.email then reasons8 ++ ["Email address available"]
    else reasons8
  let reachabilityScore3 := if jsTruthy contactInfo.website then reachabilityScore2 + 30
    else reachabilityScore2
  let reasons10 := if jsTruthy contactInfo.website then reasons9 ++ ["Website available"]
    else reasons9
  let total := roundHalfUp (needScore5 + valueScore2 + reachabilityScore3) 3
  { need := needScore5
    value := valueScore2
    reachability := reachabilityScore3
    total := total
    reasons := reasons10 }

/-- The error message `searchPlaces` throws on a missing/short API key. -/
def invalidKeyMsg : String :=
  "Invalid or missing Google Places API key. Please configure it in Settings."

/-- A raw result of the Places text search (`PlaceResult`). -/
structure PlaceResult where
  placeId : String
  name : String
  address : String
  phone : Option String := none
  website : Option String := none
  rating : Option Nat := none
  reviewCount : Option Nat := none
  category : String
  latitude : Option Nat := none
  longitude : Option Nat := none
deriving DecidableEq

/-- The contact details returned by `getPlaceDetails` (an empty record
models the soft-failure `{}` path). -/
structure PlaceDetails where
  phone : Option String := none
  website : Option String := none
deriving DecidableEq

/-- The external world one mission run interacts with: the outcome of the
Places web search (`Except.error` models a thrown/denied request), the
details lookup per place id (`none` models a thrown fetch, which the agent
absorbs), and the site audit per URL (`auditSite` never throws: every
timeout or fetch failure is already folded into its `AuditResult`). -/
structure AgentEnv where
  searchOutcome : Except String (List PlaceResult)
  details : String → Option PlaceDetails
  audit : String → AuditResult

/-- `searchPlaces(query, location, apiKey, radius)`: the API-key guard runs
before any network activity, so an empty or short key fails identically for
every query; otherwise the result is whatever the web request produced. -/
def searchPlaces (query location apiKey : String) (env : AgentEnv) :
    Except String (List PlaceResult) :=
  if apiKey.data.isEmpty || apiKey.data.length < 10 then Except.error invalidKeyMsg
  else env.searchOutcome

/-! ### Mission orchestrator (server/agent, class Agent / executeMission)

The agent's mutable instance fields, the mission event log and the three
storage tables it writes (leads, lead_metrics, scores) form the explicit
`AgentState` threaded through the pipeline.  The LLM client is never used by
`executeMission` and is not modeled. -/

/-- A row of the `lead_metrics` table. -/
structure MetricsRow where
  leadId : Nat
  httpsOk : Bool := false
  mobileOk : Bool := false
  schemaOk : Bool := false
  hasBooking : Bool := false
  lcpMs : Option Nat := none
  cls : Option String := none
  analyticsPixels : Option (List String) := none
  rating : Option String := none
  reviewCount : Option Nat := none
  cmsHint : Option String := none
deriving DecidableEq

/-- The `InsertLeadMetrics` payload (every column optional). -/
structure InsertMetrics where
  leadId : Nat
  httpsOk : Option Bool := none
  mobileOk : Option Bool := none
  schemaOk : Option Bool := none
  hasBooking : Option Bool := none
  lcpMs : Option Nat := none
  cls : Option String := none
  analyticsPixels : Option (List String) := none
  rating : Option String := none
  reviewCount : Option Nat := none
  cmsHint : Option String := none
deriving DecidableEq

/-- `upsertLeadMetrics`: field-level merge keyed by lead id — a provided
(`!== undefined`) value wins, a missing one keeps the stored value; a fresh
row takes the database defaults for missing booleans. -/
def upsertLeadMetrics (table : List MetricsRow) (ins : InsertMetrics) : List MetricsRow :=
  match table.find? (fun m => m.leadId = ins.leadId) with
  | some _ =>
    table.map (fun m =>
      if m.leadId = ins.leadId then
        { m with
          httpsOk := ins.httpsOk.getD m.httpsOk
          mobileOk := ins.mobileOk.getD m.mobileOk
          schemaOk := ins.schemaOk.getD m.schemaOk
          hasBooking := ins.hasBooking.getD m.hasBooking
          lcpMs := ins.lcpMs.orElse (fun _ => m.lcpMs)
          cls := ins.cls.orElse (fun _ => m.cls)
          analyticsPixels := ins.analyticsPixels.orElse (fun _ => m.analyticsPixels)
          rating := ins.rating.orElse (fun _ => m.rating)
          reviewCount := ins.reviewCount.orElse (fun _ => m.reviewCount)
          cmsHint := ins.cmsHint.orElse (fun _ => m.cmsHint) }
      else m)
  | none =>
    table ++ [{ leadId := ins.leadId
                httpsOk := ins.httpsOk.getD false
                mobileOk := ins.mobileOk.getD false
                schemaOk := ins.schemaOk.getD false
                hasBooking := ins.hasBooking.getD false
                lcpMs := ins.lcpMs
                cls := ins.cls
                analyticsPixels := ins.analyticsPixels
                rating := ins.rating
                reviewCount := ins.reviewCount
                cmsHint := ins.cmsHint }]

/-- A row of the `scores` table. -/
structure ScoreRow where
  leadId : Nat
  need : Nat
  value : Nat
  reachability : Nat
  total : Nat
  reasons : List String
deriving DecidableEq

/-- `upsertScore`: overwrite the whole row keyed by lead id, or insert. -/
def upsertScore (table : List ScoreRow) (ins : ScoreRow) : List ScoreRow :=
  match table.find? (fun s => s.leadId = ins.leadId) with
  | some _ => table.map (fun s => if s.leadId = ins.leadId then ins else s)
  | none => table ++ [ins]

/-- A mission event (`mission_events` row, restricted to one mission): the
mission id is implicit, the payload is the logged message. -/
structure MissionEvent where
  eventType : String
  toolName : Option String := none
  message : String
deriving DecidableEq

/-- One entry of the agent's `savedLeads` list. -/
structure SavedLead where
  id : Nat
  name : String
  score : Nat
  status : String
deriving DecidableEq

/-- The agent's mutable instance fields plus the storage it writes. -/
structure AgentState where
  savedLeads : List SavedLead := []
  processedPlaceIds : List String := []
  processedDomains : List String := []
  processedPhones : List String := []
  skippedDuplicates : Nat := 0
  updatedLeads : Nat := 0
  events : List MissionEvent := []
  store : Store := {}
  metricsTable : List MetricsRow := []
  scoresTable : List ScoreRow := []
deriving DecidableEq

/-- `this.logEvent(type, message, toolName?)`: append-only event log. -/
def logEvent (st : AgentState) (eventType message : String)
    (toolName : Option String := none) : AgentState :=
  { st with events := st.events ++ [⟨eventType, toolName, message⟩] }

/-- `Set.prototype.add` on a set modeled as a duplicate-free list. -/
def addToSet (s : List String) (x : String) : List String :=
  if s.contains x then s else s ++ [x]

/-- `AgentConfig` (the LLM fields are carried but unused by the mission
pipeline). -/
structure AgentConfig where
  provider : String := "openai"
  llmApiKey : String := ""
  placesApiKey : String
  strictScoring : Option Bool := none
deriving DecidableEq

/-- `MissionGoal`. -/
structure MissionGoal where
  query : String
  location : String
  maxLeads : Option Nat := none
  minScore : Option Nat := none
deriving DecidableEq

/-- `AgentResult`. -/
structure AgentResult where
  leadsConsidered : Nat
  leadsSaved : Nat
  qualifiedCount : Nat
  junkCount : Nat
  topLeads : List SavedLead
  completed : Bool
  message : Option String := none
deriving DecidableEq

/-- `this.createResult(considered, message)`. -/
def createResult (st : AgentState) (considered : Nat) (message : Option String) :
    AgentResult :=
  let qualifiedLeads := st.savedLeads.filter (fun l => l.status == "qualified")
  let junkLeads := st.savedLeads.filter (fun l => l.status == "junk")
  { leadsConsidered := considered
    leadsSaved := st.savedLeads.length
    qualifiedCount := qualifiedLeads.length
    junkCount := junkLeads.length
    topLeads := qualifiedLeads.take 5
    completed := true
    message := message }

/-- The conservative default `AuditResult` used when a candidate has no
website (`cmsHint = "none"`); the same shape with `"timeout"` / `"error"` is
produced by `auditSite` itself on failure. -/
def defaultAudit (hint : String) : AuditResult :=
  { httpsOk := false, mobileOk := false, hasBooking := false, schemaOk := false
    cmsHint := some hint }

/-- The enrichment step: `{...place, ...details}` — the spread of the details
object overwrites `phone` and `website` unconditionally (both keys are always
present on the details object); a thrown details lookup falls back to the
plain place. -/
def withDetails (env : AgentEnv) (place : PlaceResult) : PlaceResult :=
  match env.details place.placeId with
  | some d => { place with phone := d.phone, website := d.website }
  | none => place

/-- The audit-outcome commentary events logged after a website audit. -/
def auditLogEvents (st : AgentState) (a : AuditResult) : AgentState :=
  if a.cmsHint == some "timeout" then
    logEvent st "warning" "Website audit timed out - site may be slow"
  else if a.cmsHint == some "error" then
    logEvent st "warning" "Website audit failed - site may be unreachable"
  else
    let issues : List String :=
      (if a.httpsOk then [] else ["No HTTPS"]) ++
      (if a.mobileOk then [] else ["Not mobile-friendly"]) ++
      (if a.hasBooking then [] else ["No booking system"]) ++
      (if a.schemaOk then [] else ["Missing SEO schema"])
    if issues.length > 0 then
      logEvent st "info" ("Issues found: " ++ String.intercalate ", " issues)
    else
      logEvent st "info" "Website looks well-optimized"

/-- `this.saveLead(data)`: build the `InsertLead`, upsert it, record the
saved identity in the mission's duplicate sets, count updates, and upsert
the audit metrics and score rows.  Returns the lead id, the `isNew` flag and
the updated state. -/
def saveLead (st : AgentState) (place : PlaceResult) (auditResults : AuditResult)
    (score : ScoreResult) (status : String) : Nat × Bool × AgentState :=
  let leadData : InsertLead :=
    { name := place.name
      domain := place.website
      phone := place.phone
      email := none
      address := some place.address
      placeId := some place.placeId
      city := none
      state := none
      latitude := place.latitude.map (fun v => toString v)
      longitude := place.longitude.map (fun v => toString v)
      category := place.category
      source := "google_places"
      status := some status }
  let res := upsertLead st.store leadData
  let lead := res.1.lead
  let st := { st with store := res.2 }
  let st := { st with processedPlaceIds :=
    match lead.placeId with
    | some pid => addToSet st.processedPlaceIds pid
    | none => st.processedPlaceIds }
  let st := { st with processedDomains :=
    match lead.canonicalDomain with
    | some d => addToSet st.processedDomains d
    | none => st.processedDomains }
  let st := { st with processedPhones :=
    match lead.normalizedPhone with
    | some p => addToSet st.processedPhones p
    | none => st.processedPhones }
  let st := if res.1.wasUpdated then { st with updatedLeads := st.updatedLeads + 1 } else st
  let metricsData : InsertMetrics :=
    { leadId := lead.id
      httpsOk := some auditResults.httpsOk
      mobileOk := some auditResults.mobileOk
      hasBooking := some auditResults.hasBooking
      schemaOk := some auditResults.schemaOk
      cmsHint := auditResults.cmsHint
      lcpMs := auditResults.lcpMs
      cls := match auditResults.cls with
        | some c => if c = 0 then none else some (toString c)
        | none => none
      analyticsPixels := auditResults.analyticsPixels
      rating := place.rating.map (fun v => toString v)
      reviewCount := place.reviewCount }
  let st := { st with metricsTable := upsertLeadMetrics st.metricsTable metricsData }
  let scoreData : ScoreRow :=
    { leadId := lead.id
      need := score.need
      value := score.value
      reachability := score.reachability
      total := score.total
      reasons := score.reasons }
  let st := { st with scoresTable := upsertScore st.scoresTable scoreData }
  (lead.id, res.1.isNew, st)

/-- The post-loop tail of `executeMission`: the aggregate summary message,
the summary/listing events and the returned `AgentResult` (split out of the
mission body for modular reasoning; the code is the source tail verbatim). -/
def finishMission (st : AgentState) (minScore qualifiedCount considered : Nat) :
    Except String AgentResult × AgentState :=
  let junkCount := st.savedLeads.length - qualifiedCount
  let dedupeInfo := if st.updatedLeads > 0 then
      ", " ++ toString st.updatedLeads ++ " updated" else ""
  let skipInfo := if st.skippedDuplicates > 0 then
      " (" ++ toString st.skippedDuplicates ++ " duplicates skipped)" else ""
  let summaryMsg :=
    if st.savedLeads.length = 0 then
      if minScore > 0 then
        "Mission complete. No leads met the qualification threshold of " ++
          toString minScore ++ "." ++ skipInfo
      else "Mission complete. No businesses found to save." ++ skipInfo
    else if minScore = 0 then
      "Mission complete! Saved " ++ toString st.savedLeads.length ++ " leads (" ++
        toString qualifiedCount ++ " qualified, " ++ toString junkCount ++
        " low-score" ++ dedupeInfo ++ ")." ++ skipInfo
    else
      "Mission complete! Found " ++ toString qualifiedCount ++ " qualified leads" ++
        dedupeInfo ++ "." ++ skipInfo
  let st := logEvent st "success" summaryMsg
  let st :=
    if st.savedLeads.length > 0 then
      let qualifiedLeads := st.savedLeads.filter (fun l => 75 ≤ l.score)
      let junkLeads := st.savedLeads.filter (fun l => l.score < 75)
      let st := if qualifiedLeads.length > 0 then
          (qualifiedLeads.take 5).foldl
            (fun s l => logEvent s "info"
              ("  - " ++ l.name ++ " (Score: " ++ toString l.score ++ ")"))
            (logEvent st "info" "Qualified leads:")
        else st
      if junkLeads.length > 0 && minScore = 0 then
        (junkLeads.take 3).foldl
          (fun s l => logEvent s "info"
            ("  - " ++ l.name ++ " (Score: " ++ toString l.score ++ ")"))
          (logEvent st "info" "Low-score leads (for review):")
      else st
    else st
  (Except.ok (createResult st considered (some summaryMsg)), st)

/-- The candidate loop of `executeMission` (source order, one candidate at a
time; `qualifiedCount` is the loop-local counter).  At the top of each
iteration the target check runs first: once `qualifiedCount` has reached
`maxLeads` the loop logs the target event and stops — no remaining candidate
is audited, scored or persisted.  Then the three duplicate checks, the audit
(with the no-website default), scoring, the threshold gate and the save. -/
def processPlaces (env : AgentEnv) (minScore maxLeads : Nat) :
    List PlaceResult → AgentState → Nat → AgentState × Nat
  | [], st, qualifiedCount => (st, qualifiedCount)
  | place :: rest, st, qualifiedCount =>
    if maxLeads ≤ qualifiedCount then
      (logEvent st "success"
        ("Reached target of " ++ toString maxLeads ++ " qualified leads!"), qualifiedCount)
    else
      let placeDomain := normalizeDomain place.website
      let placePhone := normalizePhone place.phone
      if !place.placeId.data.isEmpty && st.processedPlaceIds.contains place.placeId then
        processPlaces env minScore maxLeads rest
          { st with skippedDuplicates := st.skippedDuplicates + 1 } qualifiedCount
      else if (match placeDomain with
          | some d => st.processedDomains.contains d
          | none => false) then
        processPlaces env minScore maxLeads rest
          { st with skippedDuplicates := st.skippedDuplicates + 1 } qualifiedCount
      else if (match placePhone with
          | some p => st.processedPhones.contains p
          | none => false) then
        processPlaces env minScore maxLeads rest
          { st with skippedDuplicates := st.skippedDuplicates + 1 } qualifiedCount
      else
        let st := logEvent st "info" ("Analyzing: " ++ place.name)
        let auditStep : AuditResult × AgentState :=
          if jsTruthy place.website then
            let w := place.website.getD ""
            let st := logEvent st "tool" ("Auditing website: " ++ w) (some "audit_site")
            let a := env.audit w
            (a, auditLogEvents st a)
          else
            (defaultAudit "none",
              logEvent st "warning" (place.name ++ " has no website - using default audit"))
        let auditResults := auditStep.1
        let st := auditStep.2
        let contactInfo : ContactInfo :=
          { phone := place.phone, email := none, website := place.website }
        let score := scoreLead place.name auditResults contactInfo place.category
        let isQualified := 75 ≤ score.total
        let meetsThreshold := minScore = 0 || minScore ≤ score.total
        if meetsThreshold then
          let status := if isQualified then "qualified" else "junk"
          let st := logEvent st (if isQualified then "success" else "info")
            ((if isQualified then "QUALIFIED" else "SAVED (low score)") ++ ": " ++
              place.name ++ " - Score: " ++ toString score.total ++ "/100")
          let st := logEvent st "info"
            ("  Need: " ++ toString score.need ++ " | Value: " ++ toString score.value ++
              " | Reachability: " ++ toString score.reachability)
          let st := (score.reasons.take 3).foldl
            (fun s r => logEvent s "info" ("  - " ++ r)) st
          let saved := saveLead st place auditResults score status
          let leadId := saved.1
          let isNew := saved.2.1
          let st := saved.2.2
          let st := if !isNew then logEvent st "info" "  (Updated existing lead)" else st
          let st := { st with savedLeads :=
            st.savedLeads ++ [⟨leadId, place.name, score.total, status⟩] }
          let qualifiedCount := if isQualified then qualifiedCount + 1 else qualifiedCount
          processPlaces env minScore maxLeads rest st qualifiedCount
        else
          let st := logEvent st "info" ("Skipped: " ++ place.name ++ " - Score " ++
            toString score.total ++ " below threshold " ++ toString minScore)
          processPlaces env minScore maxLeads rest st qualifiedCount

/-- Seed the mission's in-memory duplicate sets from the batch-resolved
existing leads. -/
def seedKnown (st : AgentState) (existing : List Lead) : AgentState :=
  existing.foldl
    (fun s l =>
      let s := if jsTruthy l.placeId then
          { s with processedPlaceIds := addToSet s.processedPlaceIds (l.placeId.getD "") }
        else s
      let s := if jsTruthy l.canonicalDomain then
          { s with processedDomains := addToSet s.processedDomains (l.canonicalDomain.getD "") }
        else s
      if jsTruthy l.normalizedPhone then
        { s with processedPhones := addToSet s.processedPhones (l.normalizedPhone.getD "") }
      else s)
    st

/-- `Agent.executeMission(goal)`: the full pipeline.  The return value pairs
the surfaced outcome (a thrown error or the `AgentResult`) with the final
state (event log, duplicate sets, storage tables). -/
def executeMission (env : AgentEnv) (config : AgentConfig) (goal : MissionGoal)
    (st0 : AgentState) : Except String AgentResult × AgentState :=
  let minScore := goal.minScore.getD 75
  let maxLeads := goal.maxLeads.getD 10
  let st := logEvent st0 "info"
    ("Starting mission: " ++ goal.query ++ " in " ++ goal.location)
  let st := logEvent st "info"
    ("Target: Find " ++ toString maxLeads ++ " leads with score >= " ++ toString minScore)
  let st := logEvent st "tool" "Searching for businesses..." (some "search_places")
  match searchPlaces goal.query goal.location config.placesApiKey env with
  | Except.error errorMsg =>
    let st :=
      if containsSub errorMsg "REQUEST_DENIED" then
        let st := logEvent st "error" "Google Places API access denied. Please check:"
        let st := logEvent st "error" "  1. Places API is enabled in Google Cloud Console"
        let st := logEvent st "error" "  2. Billing is set up on your Google Cloud project"
        logEvent st "error" "  3. API key has no IP/referrer restrictions blocking this server"
      else
        logEvent st "error" ("Mission failed: " ++ errorMsg)
    (Except.error errorMsg, st)
  | Except.ok places =>
    if places.length = 0 then
      let st := logEvent st "warning" "No businesses found matching your criteria"
      (Except.ok (createResult st 0 (some "No businesses found")), st)
    else
      let st := logEvent st "success"
        ("Found " ++ toString places.length ++ " potential businesses")
      let placesWithDetails := (places.take 15).map (withDetails env)
      let st := logEvent st "info"
        ("Retrieved contact details for " ++ toString placesWithDetails.length ++ " businesses")
      let placeIds := (placesWithDetails.map (fun p => p.placeId)).filter
        (fun s => !s.data.isEmpty)
      let domains := placesWithDetails.filterMap (fun p => normalizeDomain p.website)
      let phones := placesWithDetails.filterMap (fun p => normalizePhone p.phone)
      let existingByPlaceId := getLeadsByPlaceIds st.store.rows placeIds
      let existingByDomainOrPhone := getLeadsByDomainsOrPhones st.store.rows domains phones
      let allExistingLeads := existingByDomainOrPhone.foldl
        (fun acc l => if (acc.map (fun x => x.id)).contains l.id then acc else acc ++ [l])
        existingByPlaceId
      let st := seedKnown st allExistingLeads
      let st := if allExistingLeads.length > 0 then
          logEvent st "info" ("Found " ++ toString allExistingLeads.length ++
            " leads already in database - will skip duplicates")
        else st
      let looped := processPlaces env minScore maxLeads placesWithDetails st 0
      finishMission looped.1 minScore looped.2 placesWithDetails.length

/-! ### Spec-side definitions

These definitions restate claim texts clause by clause, to be compared with
the source-translated definitions above. -/

/-- The claim's decision procedure for `isFuzzyMatch`, written clause by
clause from the spec sentence, with the amendment the code forces: the
short-circuits fire on phones/cities that are non-null AND non-empty (the
code tests JS truthiness, so an empty string never short-circuits):
(1) true immediately when both leads carry equal, non-null, non-empty
normalized phones; (2) false immediately when both carry non-null, non-empty
cities that differ case-insensitively; (3) otherwise true exactly when the
normalized-name similarity is at least the threshold. -/
def fuzzyMatchSpec (lead1 lead2 : FuzzyLead) (threshold : ℚ) : Bool :=
  if (match lead1.normalizedPhone, lead2.normalizedPhone with
      | some p1, some p2 => decide (p1 ≠ "" ∧ p2 ≠ "" ∧ p1 = p2)
      | _, _ => false) = true then true
  else if (match lead1.city, lead2.city with
      | some c1, some c2 => decide (c1 ≠ "" ∧ c2 ≠ "" ∧ strToLower c1 ≠ strToLower c2)
      | _, _ => false) = true then false
  else decide (threshold ≤ nameSimilarity lead1.name lead2.name)

/-- Claim step (1): exact match on the external place id, when the candidate
supplies one. -/
def resolveByPlaceId (store : List Lead) (criteria : Criteria) : Option Lead :=
  if jsTruthy criteria.placeId then
    store.find? (fun l => l.placeId == criteria.placeId)
  else none

/-- Claim step (2): exact match on the canonical domain derived from the
candidate's website. -/
def resolveByDomain (store : List Lead) (criteria : Criteria) : Option Lead :=
  let cd := normalizeDomain criteria.domain
  if jsTruthy cd then store.find? (fun l => l.canonicalDomain == cd) else none

/-- Claim step (3): when the candidate has a normalized phone and a name,
the first of at most 10 stored leads sharing that phone that satisfies
`isFuzzyMatch` (at the default threshold). -/
def resolveByPhoneFuzzy (store : List Lead) (criteria : Criteria) : Option Lead :=
  let np := normalizePhone criteria.phone
  if jsTruthy np && jsTruthy criteria.name then
    ((store.filter (fun l => l.normalizedPhone == np)).take 10).find?
      (fun candidate =>
        isFuzzyMatch ⟨criteria.name.getD "", criteria.city, np⟩
          ⟨candidate.name, candidate.city, candidate.normalizedPhone⟩)
  else none

/-- Claim step (4): when the candidate has a name and a city, the first of
at most 20 stored leads with a case-insensitive city substring match and a
shared name prefix (the candidate's first 10 name characters) that satisfies
`isFuzzyMatch` (at the default threshold). -/
def resolveByNameCity (store : List Lead) (criteria : Criteria) : Option Lead :=
  if jsTruthy criteria.name && jsTruthy criteria.city then
    let name := criteria.name.getD ""
    let city := criteria.city.getD ""
    let namePattern := String.mk (name.data.take (Nat.min 10 name.data.length))
    ((store.filter (fun l =>
        (match l.city with
          | some ct => containsCI ct city
          | none => false) &&
        containsCI l.name namePattern)).take 20).find?
      (fun candidate =>
        isFuzzyMatch ⟨name, criteria.city, normalizePhone criteria.phone⟩
          ⟨candidate.name, candidate.city, candidate.normalizedPhone⟩)
  else none

/-- The row inserted by `upsertLead` when resolution finds no match
(abbreviation of the insert branch, used to state the upsert theorems). -/
def createdLead (st : Store) (ins : InsertLead) : Lead :=
  { id := st.nextId
    name := ins.name
    domain := ins.domain
    canonicalDomain := normalizeDomain ins.domain
    normalizedPhone := normalizePhone ins.phone
    phone := ins.phone
    email := ins.email
    address := ins.address
    city := ins.city
    state := ins.state
    latitude := ins.latitude
    longitude := ins.longitude
    category := ins.category
    source := ins.source
    placeId := ins.placeId
    status := ins.status.getD "new" }

/-- A concrete candidate (with an external place id) used to exercise the
double-upsert behavior. -/
def candC3 : InsertLead :=
  { name := "Acme Dental"
    domain := some "https://acme.com"
    phone := some "619-233-3338"
    address := some "1 Main St"
    placeId := some "p1"
    city := some "San Diego"
    state := some "CA"
    category := "dentist"
    source := "google_places"
    status := some "qualified" }

/-- The number of saved leads marked qualified in an agent state. -/
def countQ (st : AgentState) : Nat :=
  (st.savedLeads.filter (fun l => l.status == "qualified")).length

/-- The state a freshly constructed `Agent` starts a mission with: empty
instance fields over the given store. -/
def initAgentState (store : Store) : AgentState := { store := store }

/-- A trivial external world used for concrete mission runs. -/
def envCex : AgentEnv :=
  { searchOutcome := Except.ok []
    details := fun _ => none
    audit := fun _ => defaultAudit "none" }

/-- A configuration whose search-provider credential is missing. -/
def cfgCex : AgentConfig := { placesApiKey := "" }

/-- A concrete mission goal. -/
def goalCex : MissionGoal := { query := "dentists", location := "San Diego" }

/-- A concrete unprocessed candidate. -/
def placeCex : PlaceResult :=
  { placeId := "pX", name := "B", address := "1 Side St", category := "plumber" }

/-! ### Theorems -/

/-- `findExistingLead` is the first-match-wins chain of the four claim
steps (shared helper; the C2 theorem restates it). -/
theorem findExistingLead_decomp (store : List Lead) (criteria : Criteria) :
    findExistingLead store criteria =
      (resolveByPlaceId store criteria).orElse (fun _ =>
        (resolveByDomain store criteria).orElse (fun _ =>
          (resolveByPhoneFuzzy store criteria).orElse (fun _ =>
            resolveByNameCity store criteria))) := by
  simp only [findExistingLead, resolveByPlaceId, resolveByDomain, resolveByPhoneFuzzy,
    resolveByNameCity]
  cases (if jsTruthy criteria.placeId then
      store.find? (fun l => l.placeId == criteria.placeId) else none) with
  | some l => rfl
  | none =>
    cases (if jsTruthy (normalizeDomain criteria.domain) then
        store.find? (fun l => l.canonicalDomain == normalizeDomain criteria.domain)
      else none) with
    | some l => rfl
    | none =>
      cases (if jsTruthy (normalizePhone criteria.phone) && jsTruthy criteria.name then
          ((store.filter (fun l =>
            l.normalizedPhone == normalizePhone criteria.phone)).take 10).find?
            (fun candidate =>
              isFuzzyMatch
                ⟨criteria.name.getD "", criteria.city, normalizePhone criteria.phone⟩
                ⟨candidate.name, candidate.city, candidate.normalizedPhone⟩)
        else none) with
      | some l => rfl
      | none => rfl

/-- C2: entity resolution checks the identity criteria in strict order with
the first match winning — (1) external place id when supplied, (2) canonical
domain from the website, (3) first of at most 10 phone-sharing stored leads
passing `isFuzzyMatch` when the candidate has a normalized phone and name,
(4) first of at most 20 city-substring and name-prefix matches passing
`isFuzzyMatch` when the candidate has a name and city, (5) otherwise none. -/
theorem findExistingLead_strict_order (store : List Lead) (criteria : Criteria) :
    findExistingLead store criteria =
      (resolveByPlaceId store criteria).orElse (fun _ =>
        (resolveByDomain store criteria).orElse (fun _ =>
          (resolveByPhoneFuzzy store criteria).orElse (fun _ =>
            resolveByNameCity store criteria))) :=
  findExistingLead_decomp store criteria

/-- Two strings are equal iff their character lists are. -/
theorem string_data_inj {s t : String} : s.data = t.data ↔ s = t := by
  constructor
  · intro h
    cases s
    cases t
    cases h
    rfl
  · intro h
    exact congrArg String.data h

/-- A string's character list is empty iff the string is `""`. -/
theorem data_eq_nil_iff (s : String) : s.data = [] ↔ s = "" := by
  have h : ("" : String).data = [] := rfl
  rw [← h, string_data_inj]

/-- `dropWhile` is the identity when no element satisfies the predicate. -/
theorem dropWhile_eq_self_of_all {p : Char → Bool} {cs : List Char}
    (h : ∀ c ∈ cs, p c = false) : cs.dropWhile p = cs := by
  cases cs with
  | nil => rfl
  | cons a l => simp [List.dropWhile_cons, h a (by simp)]

/-- Trimming a string with no whitespace characters is the identity. -/
theorem trimList_eq_self {cs : List Char}
    (h : ∀ c ∈ cs, isSpaceChar c = false) : trimList cs = cs := by
  unfold trimList
  rw [dropWhile_eq_self_of_all h,
    dropWhile_eq_self_of_all (fun c hc => h c (List.mem_reverse.mp hc)),
    List.reverse_reverse]

/-- Digits are not whitespace. -/
theorem isSpaceChar_of_digit {c : Char} (h : isDigitChar c = true) :
    isSpaceChar c = false := by
  unfold isDigitChar at h
  unfold isSpaceChar
  simp only [Bool.and_eq_true, decide_eq_true_eq] at h
  simp only [Bool.or_eq_false_iff, decide_eq_false_iff_not]
  omega

/-- Evaluation of `normalizePhone` on a `+`-prefixed all-digit string: the
guards reduce and the branch is decided purely by the digit count. -/
theorem normalizePhone_of_plus (ds : List Char)
    (hall : ∀ c ∈ ds, isDigitChar c = true) :
    normalizePhone (some (String.mk ('+' :: ds)))
      = if ds.length = 10 then some (String.mk ('+' :: '1' :: ds))
        else if (decide (ds.length = 11) && ds.head? == some '1') = true then
          some (String.mk ('+' :: ds))
        else if (decide (10 ≤ ds.length) && decide (ds.length ≤ 15)) = true then
          some (String.mk ('+' :: ds))
        else none := by
  have hspace : ∀ c ∈ '+' :: ds, isSpaceChar c = false := by
    intro c hc
    rcases List.mem_cons.mp hc with rfl | hc
    · decide
    · exact isSpaceChar_of_digit (hall c hc)
  have hfilter : ('+' :: ds).filter isDigitChar = ds := by
    rw [List.filter_cons_of_neg (by decide), List.filter_eq_self.mpr hall]
  simp only [normalizePhone, trimList_eq_self hspace, hfilter]
  rw [if_neg (by simp)]

/-- The digit extraction of any string yields only digits. -/
theorem digits_all (p : String) :
    ∀ c ∈ p.data.filter isDigitChar, isDigitChar c = true :=
  fun _ hc => List.of_mem_filter hc

/-- C10: `normalizePhone` is idempotent on its non-null outputs — whenever
`normalizePhone(p)` returns a phone `d`, applying it to `d` returns `d`
again (each of the three `+`-prefixed output shapes re-enters one of the
accepting branches unchanged). -/
theorem normalizePhone_idempotent (p d : String)
    (h : normalizePhone (some p) = some d) : normalizePhone (some d) = some d := by
  simp only [normalizePhone] at h
  by_cases h0 : (p.data.isEmpty || (trimList p.data).isEmpty) = true
  · rw [if_pos h0] at h
    exact absurd h (by simp)
  rw [if_neg h0] at h
  by_cases h1 : (p.data.filter isDigitChar).length = 10
  · rw [if_pos h1] at h
    obtain rfl : String.mk ('+' :: '1' :: p.data.filter isDigitChar) = d :=
      Option.some.inj h
    have hone : ∀ c ∈ '1' :: p.data.filter isDigitChar, isDigitChar c = true := by
      intro c hc
      rcases List.mem_cons.mp hc with rfl | hc
      · decide
      · exact digits_all p c hc
    rw [normalizePhone_of_plus ('1' :: p.data.filter isDigitChar) hone]
    rw [if_neg (by simp [h1]), if_pos (by simp [h1])]
  rw [if_neg h1] at h
  by_cases h2 : (decide ((p.data.filter isDigitChar).length = 11) &&
      (p.data.filter isDigitChar).head? == some '1') = true
  · rw [if_pos h2] at h
    obtain rfl : String.mk ('+' :: p.data.filter isDigitChar) = d :=
      Option.some.inj h
    rw [normalizePhone_of_plus (p.data.filter isDigitChar) (digits_all p)]
    simp only [Bool.and_eq_true, decide_eq_true_eq, beq_iff_eq] at h2
    rw [if_neg (by omega), if_pos (by simp [h2.1, h2.2])]
  rw [if_neg h2] at h
  by_cases h3 : (decide (10 ≤ (p.data.filter isDigitChar).length) &&
      decide ((p.data.filter isDigitChar).length ≤ 15)) = true
  · rw [if_pos h3] at h
    obtain rfl : String.mk ('+' :: p.data.filter isDigitChar) = d :=
      Option.some.inj h
    rw [normalizePhone_of_plus (p.data.filter isDigitChar) (digits_all p)]
    rw [if_neg h1, if_neg h2, if_pos h3]
  rw [if_neg h3] at h
  exact absurd h (by simp)

/-- Witness for C10 at the spec's own test vector. -/
theorem normalizePhone_idempotent_witness :
    normalizePhone (some "619-233-3338") = some "+16192333338" ∧
    normalizePhone (some "+16192333338") = some "+16192333338" :=
  ⟨by decide, normalizePhone_idempotent "619-233-3338" "+16192333338" (by decide)⟩

/-- The name similarity of the two counterexample names is 0. -/
theorem nameSimilarity_ab_xyzw : nameSimilarity "ab" "xyzw" = 0 := by
  have hn1 : normalizeName "ab" = "ab" := by decide
  have hn2 : normalizeName "xyzw" = "xyzw" := by decide
  have hl : levenshteinDistance "ab" "xyzw" = 4 := by decide
  simp only [nameSimilarity, hn1, hn2, hl]
  norm_num
  decide

/-- An `orElse` chain that produced nothing had a empty first component. -/
theorem orElse_eq_none_left {α : Type} {o : Option α} {f : Unit → Option α}
    (h : o.orElse f = none) : o = none := by
  cases o with
  | none => rfl
  | some a => simp [Option.orElse] at h

/-- C3 counterexample: upserting the same candidate (`candC3`) twice from an
empty store gives `isNew = true` then `isNew = false` with the same id, but
the second call reports `wasUpdated = true` even though the stored rows are
unchanged — no stored field actually changed, refuting the claimed
"`wasUpdated` iff some field changed". -/
theorem upsertLead_wasUpdated_cex :
    (upsertLead {} candC3).1.isNew = true ∧
    (upsertLead (upsertLead {} candC3).2 candC3).1.isNew = false ∧
    (upsertLead (upsertLead {} candC3).2 candC3).1.lead.id
      = (upsertLead {} candC3).1.lead.id ∧
    (upsertLead (upsertLead {} candC3).2 candC3).2.rows
      = (upsertLead {} candC3).2.rows ∧
    (upsertLead (upsertLead {} candC3).2 candC3).1.wasUpdated = true := by
  decide

/-- C3 (amended): for a candidate that supplies a truthy external place id
and does not resolve against the current store, upserting it twice yields
`isNew = true` then `isNew = false` with the identical lead id both times;
the second call's `wasUpdated` flag is always `true` once a match is found,
regardless of whether any stored field changed. -/
theorem upsertLead_twice (st : Store) (ins : InsertLead)
    (hpid : jsTruthy ins.placeId = true)
    (h0 : findExistingLead st.rows
      { placeId := orUndef ins.placeId, domain := orUndef ins.domain,
        phone := orUndef ins.phone, name := some ins.name,
        city := orUndef ins.city } = none) :
    (upsertLead st ins).1.isNew = true ∧
    (upsertLead (upsertLead st ins).2 ins).1.isNew = false ∧
    (upsertLead (upsertLead st ins).2 ins).1.lead.id = (upsertLead st ins).1.lead.id ∧
    (upsertLead (upsertLead st ins).2 ins).1.wasUpdated = true := by
  obtain ⟨s, hs, hse⟩ : ∃ s, ins.placeId = some s ∧ s.data.isEmpty = false := by
    cases h : ins.placeId with
    | none => rw [h] at hpid; exact absurd hpid (by simp [jsTruthy])
    | some s =>
      refine ⟨s, rfl, ?_⟩
      rw [h] at hpid
      simpa [jsTruthy] using hpid
  have horUs : orUndef (some s) = some s := by
    simp only [orUndef]
    rw [if_neg (by simp [hse])]
  have horU : orUndef ins.placeId = some s := by
    rw [hs]
    exact horUs
  have hcrit : jsTruthy (orUndef ins.placeId) = true := by
    rw [horU]
    simpa [jsTruthy] using hse
  have e1 : upsertLead st ins =
      (⟨createdLead st ins, true, false⟩,
        ⟨st.rows ++ [createdLead st ins], st.nextId + 1⟩) := by
    simp only [upsertLead, createdLead, h0]
  have hnone : st.rows.find? (fun l => l.placeId == orUndef ins.placeId) = none := by
    rw [findExistingLead_decomp] at h0
    have h1 := orElse_eq_none_left h0
    unfold resolveByPlaceId at h1
    rw [if_pos hcrit] at h1
    exact h1
  have hfind2 : findExistingLead (st.rows ++ [createdLead st ins])
      { placeId := orUndef ins.placeId, domain := orUndef ins.domain,
        phone := orUndef ins.phone, name := some ins.name,
        city := orUndef ins.city } = some (createdLead st ins) := by
    rw [findExistingLead_decomp]
    have hres : resolveByPlaceId (st.rows ++ [createdLead st ins])
        { placeId := orUndef ins.placeId, domain := orUndef ins.domain,
          phone := orUndef ins.phone, name := some ins.name,
          city := orUndef ins.city } = some (createdLead st ins) := by
      unfold resolveByPlaceId
      rw [if_pos hcrit]
      rw [List.find?_append, hnone]
      simp [List.find?, createdLead, hs, horUs]
    rw [hres]
    rfl
  have e2 : upsertLead (upsertLead st ins).2 ins =
      (⟨mergeLead (createdLead st ins) ins
          (normalizeDomain ins.domain) (normalizePhone ins.phone), false, true⟩,
        ⟨(st.rows ++ [createdLead st ins]).map (fun l =>
            if l.id = (createdLead st ins).id then
              mergeLead (createdLead st ins) ins
                (normalizeDomain ins.domain) (normalizePhone ins.phone)
            else l),
          st.nextId + 1⟩) := by
    rw [e1]
    simp only [upsertLead, hfind2]
  rw [e2, e1]
  exact ⟨rfl, rfl, rfl, rfl⟩

/-- Witness for C3 (amended) at the concrete candidate and the empty
store. -/
theorem upsertLead_twice_witness :
    (upsertLead {} candC3).1.isNew = true ∧
    (upsertLead (upsertLead {} candC3).2 candC3).1.isNew = false ∧
    (upsertLead (upsertLead {} candC3).2 candC3).1.lead.id
      = (upsertLead {} candC3).1.lead.id ∧
    (upsertLead (upsertLead {} candC3).2 candC3).1.wasUpdated = true :=
  upsertLead_twice {} candC3 (by decide) (by decide)

/-- C5 counterexample: two leads whose normalized phones are equal and
non-null (both `""`) but where `isFuzzyMatch` returns `false` — the claim
demands an immediate `true` for equal non-null phones, but the code tests JS
truthiness, so the empty string never short-circuits and the dissimilar
names decide the call. -/
theorem isFuzzyMatch_empty_phone_cex :
    (⟨"ab", none, some ""⟩ : FuzzyLead).normalizedPhone ≠ none ∧
    (⟨"ab", none, some ""⟩ : FuzzyLead).normalizedPhone
      = (⟨"xyzw", none, some ""⟩ : FuzzyLead).normalizedPhone ∧
    isFuzzyMatch ⟨"ab", none, some ""⟩ ⟨"xyzw", none, some ""⟩ = false := by
  refine ⟨by decide, by decide, ?_⟩
  simp only [isFuzzyMatch, jsTruthy, nameSimilarity_ab_xyzw]
  norm_num

/-- C5 (amended): for every pair of leads and every threshold,
`isFuzzyMatch` implements exactly the claimed precedence with "non-null"
strengthened to "non-null and non-empty": phone short-circuit to true, then
city mismatch short-circuit to false, then name similarity against the
threshold (`0.85` by default). -/
theorem isFuzzyMatch_precedence (lead1 lead2 : FuzzyLead) (threshold : ℚ) :
    isFuzzyMatch lead1 lead2 threshold = fuzzyMatchSpec lead1 lead2 threshold := by
  obtain ⟨n1, c1, p1⟩ := lead1
  obtain ⟨n2, c2, p2⟩ := lead2
  simp only [isFuzzyMatch, fuzzyMatchSpec, jsTruthy]
  rcases p1 with _ | p1 <;> rcases p2 with _ | p2 <;>
    rcases c1 with _ | c1 <;> rcases c2 with _ | c2 <;>
    simp [data_eq_nil_iff, and_assoc]

set_option maxHeartbeats 1000000 in
/-- C1: for every audit result, contact-info record and category (and any
business name), `scoreLead` returns a `total` equal to round-half-up of
`(need + value + reachability) / 3` — `roundHalfUp n 3 = ⌊n/3 + 1/2⌋` — and
this total lies in `[0, 100]` (it is a `Nat`, so integrality and `0 ≤ total`
hold by typing; the upper bound is proved). -/
theorem scoreLead_total_round_and_bounded (businessName : String)
    (auditResults : AuditResult) (contactInfo : ContactInfo) (category : String) :
    (scoreLead businessName auditResults contactInfo category).total
      = roundHalfUp ((scoreLead businessName auditResults contactInfo category).need
          + (scoreLead businessName auditResults contactInfo category).value
          + (scoreLead businessName auditResults contactInfo category).reachability) 3
    ∧ (scoreLead businessName auditResults contactInfo category).total ≤ 100 := by
  refine ⟨rfl, ?_⟩
  simp only [scoreLead]
  split_ifs <;> decide

set_option maxHeartbeats 1000000 in
/-- C8: whenever every audit flag is false and no analytics pixels are
recorded (the shape `auditSite` returns on timeout/fetch failure and the
default used for a candidate with no website), `scoreLead` assigns a need
score of exactly 100 and its reasons list starts with all five deficiency
reasons, in source order. -/
theorem scoreLead_degraded_audit_need_100 (businessName : String)
    (auditResults : AuditResult) (contactInfo : ContactInfo) (category : String)
    (h1 : auditResults.httpsOk = false) (h2 : auditResults.mobileOk = false)
    (h3 : auditResults.hasBooking = false) (h4 : auditResults.schemaOk = false)
    (h5 : auditResults.analyticsPixels = none) :
    (scoreLead businessName auditResults contactInfo category).need = 100 ∧
    (scoreLead businessName auditResults contactInfo category).reasons.take 5 =
      ["Missing HTTPS security", "Not mobile optimized", "No online booking system",
       "Missing structured data", "No analytics tracking"] := by
  simp only [scoreLead, h1, h2, h3, h4, h5]
  split_ifs <;> simp_all

/-- Witness for C8 at the concrete conservative audit produced for a failed
fetch (`cmsHint = "error"`). -/
theorem scoreLead_degraded_audit_need_100_witness :
    (scoreLead "Acme Dental" (defaultAudit "error") {} "restaurant").need = 100 ∧
    (scoreLead "Acme Dental" (defaultAudit "error") {} "restaurant").reasons.take 5 =
      ["Missing HTTPS security", "Not mobile optimized", "No online booking system",
       "Missing structured data", "No analytics tracking"] :=
  scoreLead_degraded_audit_need_100 "Acme Dental" (defaultAudit "error") {} "restaurant"
    rfl rfl rfl rfl rfl

/-- C9: `scoreLead` never reads its `businessName` argument — two calls that
differ only in the business name return identical results (need, value,
reachability, total and reasons). -/
theorem scoreLead_ignores_businessName (name1 name2 : String)
    (auditResults : AuditResult) (contactInfo : ContactInfo) (category : String) :
    scoreLead name1 auditResults contactInfo category
      = scoreLead name2 auditResults contactInfo category := rfl

/-! Support for C4 and C7: state-preservation lemmas for the mission loop,
the qualified-count invariant and the mission-level cap. -/

/-- `logEvent` only appends to the event log. -/
theorem logEvent_savedLeads (st : AgentState) (t m : String) (tool : Option String) :
    (logEvent st t m tool).savedLeads = st.savedLeads := rfl

/-- The audit commentary events do not change the saved leads. -/
theorem auditLogEvents_savedLeads (st : AgentState) (a : AuditResult) :
    (auditLogEvents st a).savedLeads = st.savedLeads := by
  unfold auditLogEvents
  split_ifs <;> rfl

/-- Folding `logEvent` over any list does not change the saved leads. -/
theorem foldl_logEvent_savedLeads {α : Type} (f : α → String) (xs : List α)
    (st : AgentState) :
    (xs.foldl (fun s x => logEvent s "info" (f x)) st).savedLeads
      = st.savedLeads := by
  induction xs generalizing st with
  | nil => rfl
  | cons r rest ih => rw [List.foldl_cons, ih, logEvent_savedLeads]

/-- `saveLead` writes storage and duplicate sets but never `savedLeads`. -/
theorem saveLead_savedLeads (st : AgentState) (place : PlaceResult)
    (a : AuditResult) (sc : ScoreResult) (status : String) :
    (saveLead st place a sc status).2.2.savedLeads = st.savedLeads := by
  simp only [saveLead]
  split
  · split
    · split <;> split <;> rfl
    · split <;> split <;> rfl
  · split
    · split <;> split <;> rfl
    · split <;> split <;> rfl

/-- Glue: transporting the loop invariant along a state change that keeps
the qualified count. -/
theorem countQ_glue_same {stL st : AgentState} {q ml : Nat} {P : AgentState × Nat}
    (H : q ≤ P.2 ∧ P.2 ≤ Nat.max q ml ∧ countQ P.1 = countQ stL + (P.2 - q))
    (hcnt : countQ stL = countQ st) :
    q ≤ P.2 ∧ P.2 ≤ Nat.max q ml ∧ countQ P.1 = countQ st + (P.2 - q) := by
  rw [hcnt] at H
  exact H

/-- Glue: transporting the loop invariant along one qualified save. -/
theorem countQ_glue_step {stL st : AgentState} {q ml : Nat} {P : AgentState × Nat}
    (H : q + 1 ≤ P.2 ∧ P.2 ≤ Nat.max (q + 1) ml ∧
      countQ P.1 = countQ stL + (P.2 - (q + 1)))
    (hcnt : countQ stL = countQ st + 1) (hstop : ¬ ml ≤ q) :
    q ≤ P.2 ∧ P.2 ≤ Nat.max q ml ∧ countQ P.1 = countQ st + (P.2 - q) := by
  obtain ⟨hge, hle, hc⟩ := H
  have e1 : Nat.max (q + 1) ml = ml := Nat.max_eq_right (by omega)
  have e2 : Nat.max q ml = ml := Nat.max_eq_right (by omega)
  rw [hcnt] at hc
  exact ⟨by omega, by omega, by omega⟩

/-- The loop invariant of `processPlaces`: the qualified counter never
decreases, never exceeds `max q maxLeads`, and the qualified saved-lead
count grows by exactly the counter's growth. -/
theorem processPlaces_invariant (env : AgentEnv) (minScore maxLeads : Nat) :
    ∀ (places : List PlaceResult) (st : AgentState) (q : Nat),
    q ≤ (processPlaces env minScore maxLeads places st q).2 ∧
    (processPlaces env minScore maxLeads places st q).2 ≤ Nat.max q maxLeads ∧
    countQ (processPlaces env minScore maxLeads places st q).1
      = countQ st + ((processPlaces env minScore maxLeads places st q).2 - q) := by
  intro places
  induction places with
  | nil =>
    intro st q
    simp only [processPlaces]
    exact ⟨Nat.le_refl q, Nat.le_max_left q maxLeads, by omega⟩
  | cons place rest ih =>
    intro st q
    simp only [processPlaces]
    by_cases hstop : maxLeads ≤ q
    · rw [if_pos hstop]
      exact ⟨Nat.le_refl q, Nat.le_max_left q maxLeads, by simp [countQ, logEvent]⟩
    rw [if_neg hstop]
    by_cases h1 : (!place.placeId.data.isEmpty &&
        st.processedPlaceIds.contains place.placeId) = true
    · rw [if_pos h1]
      exact ih _ q
    rw [if_neg h1]
    by_cases h2 : (match normalizeDomain place.website with
        | some d => st.processedDomains.contains d
        | none => false) = true
    · rw [if_pos h2]
      exact ih _ q
    rw [if_neg h2]
    by_cases h3 : (match normalizePhone place.phone with
        | some p => st.processedPhones.contains p
        | none => false) = true
    · rw [if_pos h3]
      exact ih _ q
    rw [if_neg h3]
    by_cases hweb : jsTruthy place.website = true
    · rw [if_pos hweb]
      dsimp only
      split_ifs with hmeets hqual hnew hnew
      · exact countQ_glue_step (ih _ _) (by simp [countQ, logEvent_savedLeads,
          auditLogEvents_savedLeads, foldl_logEvent_savedLeads,
          saveLead_savedLeads, List.filter_append]) hstop
      · exact countQ_glue_step (ih _ _) (by simp [countQ, logEvent_savedLeads,
          auditLogEvents_savedLeads, foldl_logEvent_savedLeads,
          saveLead_savedLeads, List.filter_append]) hstop
      · exact countQ_glue_same (ih _ _) (by simp [countQ, logEvent_savedLeads,
          auditLogEvents_savedLeads, foldl_logEvent_savedLeads,
          saveLead_savedLeads, List.filter_append])
      · exact countQ_glue_same (ih _ _) (by simp [countQ, logEvent_savedLeads,
          auditLogEvents_savedLeads, foldl_logEvent_savedLeads,
          saveLead_savedLeads, List.filter_append])
      · exact countQ_glue_same (ih _ _) (by simp [countQ, logEvent_savedLeads,
          auditLogEvents_savedLeads])
    · rw [if_neg hweb]
      dsimp only
      split_ifs with hmeets hqual hnew hnew
      · exact countQ_glue_step (ih _ _) (by simp [countQ, logEvent_savedLeads,
          auditLogEvents_savedLeads, foldl_logEvent_savedLeads,
          saveLead_savedLeads, List.filter_append]) hstop
      · exact countQ_glue_step (ih _ _) (by simp [countQ, logEvent_savedLeads,
          auditLogEvents_savedLeads, foldl_logEvent_savedLeads,
          saveLead_savedLeads, List.filter_append]) hstop
      · exact countQ_glue_same (ih _ _) (by simp [countQ, logEvent_savedLeads,
          auditLogEvents_savedLeads, foldl_logEvent_savedLeads,
          saveLead_savedLeads, List.filter_append])
      · exact countQ_glue_same (ih _ _) (by simp [countQ, logEvent_savedLeads,
          auditLogEvents_savedLeads, foldl_logEvent_savedLeads,
          saveLead_savedLeads, List.filter_append])
      · exact countQ_glue_same (ih _ _) (by simp [countQ, logEvent_savedLeads,
          auditLogEvents_savedLeads])

/-- `logEvent` keeps the qualified count. -/
theorem countQ_logEvent (st : AgentState) (t m : String) (tool : Option String) :
    countQ (logEvent st t m tool) = countQ st := rfl

/-- The fold inside `seedKnown` never touches `savedLeads`. -/
theorem countQ_foldl_seed :
    ∀ (ls : List Lead) (st : AgentState),
    (List.foldl (fun s l =>
      let s := if jsTruthy l.placeId then
          { s with processedPlaceIds := addToSet s.processedPlaceIds (l.placeId.getD "") }
        else s
      let s := if jsTruthy l.canonicalDomain then
          { s with processedDomains := addToSet s.processedDomains (l.canonicalDomain.getD "") }
        else s
      if jsTruthy l.normalizedPhone then
        { s with processedPhones := addToSet s.processedPhones (l.normalizedPhone.getD "") }
      else s) st ls).savedLeads = st.savedLeads := by
  intro ls
  induction ls with
  | nil => intro st; rfl
  | cons l rest ih =>
    intro st
    rw [List.foldl_cons, ih]
    dsimp only
    split_ifs <;> rfl

/-- `seedKnown` keeps the qualified count. -/
theorem countQ_seedKnown (st : AgentState) (ls : List Lead) :
    countQ (seedKnown st ls) = countQ st := by
  simp only [countQ, seedKnown, countQ_foldl_seed]

/-- The mission wrap-up only logs events: the qualified count is kept. -/
theorem countQ_finishMission (st : AgentState) (minScore q c : Nat) :
    countQ (finishMission st minScore q c).2 = countQ st := by
  simp only [finishMission]
  split_ifs <;>
    simp [countQ, logEvent_savedLeads, foldl_logEvent_savedLeads]

/-- The loop's final counter is bounded by `max q maxLeads`. -/
theorem processPlaces_q_le (env : AgentEnv) (minScore maxLeads : Nat)
    (places : List PlaceResult) (st : AgentState) (q : Nat) :
    (processPlaces env minScore maxLeads places st q).2 ≤ Nat.max q maxLeads :=
  (processPlaces_invariant env minScore maxLeads places st q).2.1

/-- The loop's qualified saved-lead count grows by the counter's growth. -/
theorem processPlaces_countQ (env : AgentEnv) (minScore maxLeads : Nat)
    (places : List PlaceResult) (st : AgentState) (q : Nat) :
    countQ (processPlaces env minScore maxLeads places st q).1
      = countQ st + ((processPlaces env minScore maxLeads places st q).2 - q) :=
  (processPlaces_invariant env minScore maxLeads places st q).2.2

/-- A fresh agent has no saved leads. -/
theorem countQ_init (store : Store) : countQ (initAgentState store) = 0 := rfl

/-- Mission-level cap: a mission started on a fresh agent state saves at
most `maxLeads` (default 10) qualified leads. -/
theorem executeMission_qual_cap (env : AgentEnv) (config : AgentConfig)
    (goal : MissionGoal) (store : Store) :
    countQ (executeMission env config goal (initAgentState store)).2
      ≤ goal.maxLeads.getD 10 := by
  simp only [executeMission]
  cases hs : searchPlaces goal.query goal.location config.placesApiKey env with
  | error e =>
    simp only
    split_ifs <;> simp [countQ, logEvent, initAgentState]
  | ok places =>
    simp only
    by_cases hz : places.length = 0
    · rw [if_pos hz]
      simp [countQ, logEvent, initAgentState, createResult]
    · rw [if_neg hz]
      rw [countQ_finishMission, processPlaces_countQ, Nat.sub_zero, apply_ite countQ]
      simp only [countQ_logEvent, countQ_seedKnown, countQ_init, ite_self, Nat.zero_add]
      exact le_trans (processPlaces_q_le _ _ _ _ _ _) (by simp [Nat.zero_max])

/-- C4: at most `maxLeads` (default 10) qualified leads are saved per
mission, and once the qualified counter has reached `maxLeads` the candidate
loop stops at the top of the next iteration — it logs the single
reached-target event and returns the state otherwise unchanged, so no
remaining candidate is audited, scored or persisted. -/
theorem executeMission_maxLeads :
    (∀ (env : AgentEnv) (config : AgentConfig) (goal : MissionGoal) (store : Store),
      countQ (executeMission env config goal (initAgentState store)).2
        ≤ goal.maxLeads.getD 10) ∧
    (∀ (env : AgentEnv) (minScore maxLeads : Nat) (place : PlaceResult)
        (rest : List PlaceResult) (st : AgentState) (q : Nat), maxLeads ≤ q →
      processPlaces env minScore maxLeads (place :: rest) st q
        = (logEvent st "success"
            ("Reached target of " ++ toString maxLeads ++ " qualified leads!"), q)) := by
  constructor
  · exact executeMission_qual_cap
  · intro env minScore maxLeads place rest st q h
    simp only [processPlaces]
    rw [if_pos h]

/-- Witness for C4 at a reached target (`maxLeads = 0`): the loop stops
immediately with only the reached-target event logged. -/
theorem executeMission_maxLeads_witness :
    processPlaces envCex 75 0 [placeCex] (initAgentState {}) 0
      = (logEvent (initAgentState {}) "success"
          ("Reached target of " ++ toString 0 ++ " qualified leads!"), 0) :=
  executeMission_maxLeads.2 envCex 75 0 placeCex [] (initAgentState {}) 0 (Nat.le_refl 0)

/-- C7 counterexample: with a missing credential the mission does fail with
the configuration error, but the event log holds three non-error entries
(the two startup info events and the search tool event) before the single
error diagnostic — not "no entries other than the error". -/
theorem missionEvents_invalid_key_cex :
    ((executeMission envCex cfgCex goalCex (initAgentState {})).2.events).map
        (fun e => e.eventType) = ["info", "info", "tool", "error"] ∧
    (executeMission envCex cfgCex goalCex (initAgentState {})).1
      = Except.error invalidKeyMsg := by
  constructor
  · decide
  · rfl

set_option maxHeartbeats 4000000 in
/-- C7 (amended): when the search-provider credential is missing or invalid
(empty or shorter than 10 characters), the mission fails during the initial
search with the configuration error surfaced to the caller, and the event
log gains exactly the two startup info events, the search tool event and a
single error diagnostic; no candidate is processed and nothing else in the
state changes. -/
theorem missionEvents_invalid_key (env : AgentEnv) (config : AgentConfig)
    (goal : MissionGoal) (st0 : AgentState)
    (hkey : (config.placesApiKey.data.isEmpty ||
      decide (config.placesApiKey.data.length < 10)) = true) :
    executeMission env config goal st0
      = (Except.error invalidKeyMsg,
         { st0 with events := st0.events ++
            [⟨"info", none, "Starting mission: " ++ goal.query ++ " in " ++ goal.location⟩,
             ⟨"info", none, "Target: Find " ++ toString (goal.maxLeads.getD 10) ++
               " leads with score >= " ++ toString (goal.minScore.getD 75)⟩,
             ⟨"tool", some "search_places", "Searching for businesses..."⟩,
             ⟨"error", none, "Mission failed: " ++ invalidKeyMsg⟩] }) := by
  simp only [executeMission, logEvent]
  cases hs : searchPlaces goal.query goal.location config.placesApiKey env with
  | error e =>
    have he : e = invalidKeyMsg := by
      simp only [searchPlaces] at hs
      rw [if_pos hkey] at hs
      exact (Except.error.inj hs).symm
    subst he
    split
    · next errorMsg heq =>
        obtain rfl : invalidKeyMsg = errorMsg := Except.error.inj heq
        rw [show containsSub invalidKeyMsg "REQUEST_DENIED" = false from by decide]
        simp [List.append_assoc]
    · next places heq => exact absurd heq (by simp)
  | ok places =>
    simp only [searchPlaces] at hs
    rw [if_pos hkey] at hs
    exact absurd hs (by simp)

/-- Witness for C7 (amended) at the concrete empty-credential run. -/
theorem missionEvents_invalid_key_witness :
    executeMission envCex cfgCex goalCex (initAgentState {})
      = (Except.error invalidKeyMsg,
         { initAgentState {} with events := (initAgentState {}).events ++
            [⟨"info", none, "Starting mission: " ++ goalCex.query ++ " in " ++ goalCex.location⟩,
             ⟨"info", none, "Target: Find " ++ toString (goalCex.maxLeads.getD 10) ++
               " leads with score >= " ++ toString (goalCex.minScore.getD 75)⟩,
             ⟨"tool", some "search_places", "Searching for businesses..."⟩,
             ⟨"error", none, "Mission failed: " ++ invalidKeyMsg⟩] }) :=
  missionEvents_invalid_key envCex cfgCex goalCex (initAgentState {}) (by decide)

/-! Support for C6: characterization of `normalizeDomain` outputs and
re-parsing of bare hostnames. -/

theorem toNat_ofNat_range {n : Nat} (h1 : 97 ≤ n) (h2 : n ≤ 122) :
    (Char.ofNat n).toNat = n := by
  interval_cases n <;> decide

theorem charToLower_eq_self {c : Char} (h : ¬(65 ≤ c.toNat ∧ c.toNat ≤ 90)) :
    charToLower c = c := by
  unfold charToLower
  rw [if_neg h]

theorem hostChar_not_upper {c : Char} (h : hostChar c = true) :
    ¬(65 ≤ c.toNat ∧ c.toNat ≤ 90) := by
  unfold hostChar at h
  simp only [Bool.or_eq_true, Bool.and_eq_true, decide_eq_true_eq] at h
  omega

theorem charToLower_of_hostChar {c : Char} (h : hostChar c = true) :
    charToLower c = c := charToLower_eq_self (hostChar_not_upper h)

theorem hostChar_of_labelChar {c : Char} (h : labelChar c = true) :
    hostChar (charToLower c) = true := by
  unfold labelChar at h
  simp only [Bool.or_eq_true, Bool.and_eq_true, decide_eq_true_eq] at h
  unfold charToLower hostChar
  split_ifs with hup
  · rw [toNat_ofNat_range (by omega) (by omega)]
    simp only [Bool.or_eq_true, Bool.and_eq_true, decide_eq_true_eq]
    omega
  · simp only [Bool.or_eq_true, Bool.and_eq_true, decide_eq_true_eq]
    omega

theorem hostChar_not_space {c : Char} (h : hostChar c = true) :
    isSpaceChar c = false := by
  unfold hostChar at h
  unfold isSpaceChar
  simp only [Bool.or_eq_true, Bool.and_eq_true, decide_eq_true_eq] at h
  simp only [Bool.or_eq_false_iff, decide_eq_false_iff_not]
  omega

theorem takeWhile_eq_self_of_all {p : Char → Bool} {cs : List Char}
    (h : ∀ c ∈ cs, p c = true) : cs.takeWhile p = cs := by
  induction cs with
  | nil => rfl
  | cons a l ih =>
    rw [List.takeWhile_cons, if_pos (h a (by simp))]
    rw [ih (fun c hc => h c (by simp [hc]))]

theorem map_eq_self_of_fix {f : Char → Char} {cs : List Char}
    (h : ∀ c ∈ cs, f c = c) : cs.map f = cs := by
  induction cs with
  | nil => rfl
  | cons a l ih =>
    rw [List.map_cons, h a (by simp), ih (fun c hc => h c (by simp [hc]))]

theorem startsWithList_append_self (pre xs : List Char) :
    startsWithList pre (pre ++ xs) = true := by
  induction pre with
  | nil => rfl
  | cons a l ih => simpa [startsWithList] using ih

theorem startsWithList_mem {pre xs : List Char}
    (h : startsWithList pre xs = true) : ∀ c ∈ pre, c ∈ xs := by
  induction pre generalizing xs with
  | nil => simp
  | cons a l ih =>
    cases xs with
    | nil => simp [startsWithList] at h
    | cons b ys =>
      simp only [startsWithList, Bool.and_eq_true, beq_iff_eq] at h
      intro c hc
      rcases List.mem_cons.mp hc with rfl | hc
      · simp [h.1]
      · exact List.mem_cons_of_mem b (ih h.2 c hc)

-- urlHostname output characterization
theorem urlHostname_spec {cu : String} {h : String}
    (hu : urlHostname cu = some h) :
    h.data ≠ [] ∧ ∀ c ∈ h.data, hostChar c = true := by
  unfold urlHostname at hu
  cases hds : dropScheme cu.data with
  | none => rw [hds] at hu; exact absurd hu (by simp)
  | some rest =>
    rw [hds] at hu
    simp only at hu
    by_cases he : (((rest.takeWhile (fun c => !authorityEnd c)
        |> afterLastAt).takeWhile (fun c => c.toNat ≠ 58)).map charToLower).isEmpty = true
    · rw [if_pos he] at hu; exact absurd hu (by simp)
    · rw [if_neg he] at hu
      by_cases ha : (((rest.takeWhile (fun c => !authorityEnd c)
          |> afterLastAt).takeWhile (fun c => c.toNat ≠ 58)).map charToLower).all hostChar = true
      · rw [if_pos ha] at hu
        obtain rfl : String.mk _ = h := Option.some.inj hu
        refine ⟨fun hnil => ?_, fun c hc => List.all_eq_true.mp ha c hc⟩
        dsimp only at hnil
        rw [hnil] at he
        exact he rfl
      · rw [if_neg ha] at hu; exact absurd hu (by simp)

theorem hostChar_facts {c : Char} (h : hostChar c = true) :
    authorityEnd c = false ∧ c.toNat ≠ 64 ∧ c.toNat ≠ 58 := by
  unfold hostChar at h
  unfold authorityEnd
  simp only [Bool.or_eq_true, Bool.and_eq_true, decide_eq_true_eq] at h
  simp only [Bool.or_eq_false_iff, decide_eq_false_iff_not]
  omega

theorem isEmpty_false_of_ne_nil {cs : List Char} (h : cs ≠ []) :
    cs.isEmpty = false := by
  cases cs with
  | nil => exact absurd rfl h
  | cons a l => rfl

theorem map_charToLower_scheme (X : List Char) :
    List.map charToLower ('h' :: 't' :: 't' :: 'p' :: 's' :: ':' :: '/' :: '/' :: X)
      = 'h' :: 't' :: 't' :: 'p' :: 's' :: ':' :: '/' :: '/' :: List.map charToLower X := by
  simp [charToLower]

theorem urlHostname_of_host {d : String} (hne : d.data ≠ [])
    (hall : ∀ c ∈ d.data, hostChar c = true) :
    urlHostname (String.mk ('h' :: 't' :: 't' :: 'p' :: 's' :: ':' :: '/' :: '/' :: d.data))
      = some d := by
  have hds : dropScheme ('h' :: 't' :: 't' :: 'p' :: 's' :: ':' :: '/' :: '/' :: d.data)
      = some d.data := by
    unfold dropScheme
    rw [map_charToLower_scheme]
    have hsw : startsWithList ['h','t','t','p','s',':','/','/']
        ('h' :: 't' :: 't' :: 'p' :: 's' :: ':' :: '/' :: '/' :: List.map charToLower d.data) = true :=
      startsWithList_append_self ['h','t','t','p','s',':','/','/']
        (List.map charToLower d.data)
    rw [if_pos hsw]
    rfl
  unfold urlHostname
  rw [show (String.mk ('h' :: 't' :: 't' :: 'p' :: 's' :: ':' :: '/' :: '/' :: d.data)).data
    = 'h' :: 't' :: 't' :: 'p' :: 's' :: ':' :: '/' :: '/' :: d.data from rfl, hds]
  simp only
  have h1 : d.data.takeWhile (fun c => !authorityEnd c) = d.data :=
    takeWhile_eq_self_of_all (fun c hc => by
      rw [(hostChar_facts (hall c hc)).1]; rfl)
  have h2 : afterLastAt d.data = d.data := by
    unfold afterLastAt
    rw [takeWhile_eq_self_of_all (fun c hc => by
      simp [(hostChar_facts (hall c (List.mem_reverse.mp hc))).2.1]),
      List.reverse_reverse]
  have h3 : d.data.takeWhile (fun c => decide (c.toNat ≠ 58)) = d.data :=
    takeWhile_eq_self_of_all (fun c hc => by
      simp [(hostChar_facts (hall c hc)).2.2])
  have h4 : d.data.map charToLower = d.data :=
    map_eq_self_of_fix (fun c hc => charToLower_of_hostChar (hall c hc))
  rw [h1, h2, h3, h4]
  rw [if_neg (by rw [isEmpty_false_of_ne_nil hne]; exact Bool.false_ne_true)]
  rw [if_pos (List.all_eq_true.mpr hall)]

theorem scheme_not_of_host {d : String}
    (hall : ∀ c ∈ d.data, hostChar c = true) :
    dropScheme d.data = none := by
  have h4 : d.data.map charToLower = d.data :=
    map_eq_self_of_fix (fun c hc => charToLower_of_hostChar (hall c hc))
  have hs : ∀ pre : List Char, ':' ∈ pre → startsWithList pre d.data = false := by
    intro pre hcolon
    by_contra hsw
    rw [Bool.not_eq_false] at hsw
    have hm := hall ':' (startsWithList_mem hsw ':' hcolon)
    exact absurd hm (by decide)
  unfold dropScheme
  rw [h4, hs _ (by decide), hs _ (by decide)]
  simp

theorem normalizeDomain_fix {d : String} (hne : d.data ≠ [])
    (hall : ∀ c ∈ d.data, hostChar c = true) (hloc : d ≠ "localhost")
    (hwww : startsWithList ['w','w','w','.'] d.data = false) :
    normalizeDomain (some d) = some d := by
  have htrim : trimList d.data = d.data :=
    trimList_eq_self (fun c hc => hostChar_not_space (hall c hc))
  simp only [normalizeDomain, htrim]
  rw [if_neg (by simp [isEmpty_false_of_ne_nil hne])]
  rw [if_neg (by rw [scheme_not_of_host hall]; simp)]
  rw [urlHostname_of_host hne hall]
  simp only [hwww]
  rw [if_neg ?_]
  · rfl
  · simp [isEmpty_false_of_ne_nil hne, hloc]

theorem labelChar_of_alnum {c : Char} (h : alnumChar c = true) : labelChar c = true := by
  unfold alnumChar at h
  unfold labelChar
  simp only [Bool.or_eq_true, Bool.and_eq_true, decide_eq_true_eq] at h ⊢
  omega

theorem hostChar_of_dot46 {c : Char} (h : c.toNat = 46) :
    hostChar (charToLower c) = true := by
  rw [charToLower_eq_self (by omega)]
  unfold hostChar
  simp only [Bool.or_eq_true, Bool.and_eq_true, decide_eq_true_eq]
  omega

theorem toNat_charToLower_of_dot46 {c : Char} (h : c.toNat = 46) :
    (charToLower c).toNat = 46 := by
  rw [charToLower_eq_self (by omega)]
  exact h

theorem matchLabel_spec {cs lab rem : List Char}
    (h : matchLabel cs = some (lab, rem)) :
    lab ≠ [] ∧ ∀ c ∈ lab, labelChar c = true := by
  cases cs with
  | nil => simp [matchLabel] at h
  | cons c rest =>
    simp only [matchLabel] at h
    by_cases ha : alnumChar c = true
    · rw [if_pos ha] at h
      obtain ⟨h1, h2⟩ := Prod.mk.injEq .. ▸ Option.some.inj h
      subst h1
      refine ⟨by simp, ?_⟩
      intro x hx
      rcases List.mem_cons.mp hx with rfl | hx
      · exact labelChar_of_alnum ha
      · exact List.mem_takeWhile_imp hx
    · rw [if_neg ha] at h
      exact absurd h (by simp)

theorem dotLabels_spec : ∀ (fuel : Nat) (cs : List Char),
    (∀ c ∈ (dotLabels fuel cs).1, labelChar c = true ∨ c.toNat = 46) ∧
    ((dotLabels fuel cs).1 = [] ∨ ∃ c ∈ (dotLabels fuel cs).1, c.toNat = 46) := by
  intro fuel
  induction fuel with
  | zero => intro cs; simp [dotLabels]
  | succ fuel ih =>
    intro cs
    cases cs with
    | nil => simp [dotLabels]
    | cons c rest =>
      simp only [dotLabels]
      by_cases hdot : c.toNat = 46
      · rw [if_pos hdot]
        cases hml : matchLabel rest with
        | none => simp
        | some labrem =>
          obtain ⟨lab, rem⟩ := labrem
          obtain ⟨hlabne, hlab⟩ := matchLabel_spec hml
          simp only
          constructor
          · intro x hx
            rcases List.mem_cons.mp hx with rfl | hx
            · exact Or.inr hdot
            · rcases List.mem_append.mp hx with hx | hx
              · exact Or.inl (hlab x hx)
              · exact (ih rem).1 x hx
          · exact Or.inr ⟨c, by simp, hdot⟩
      · rw [if_neg hdot]
        simp

theorem matchDomainCore_spec {cs core : List Char}
    (h : matchDomainCore cs = some core) :
    core ≠ [] ∧ (∀ c ∈ core, labelChar c = true ∨ c.toNat = 46) ∧
      ∃ c ∈ core, c.toNat = 46 := by
  unfold matchDomainCore at h
  cases hml : matchLabel cs with
  | none => rw [hml] at h; exact absurd h (by simp)
  | some labrem =>
    obtain ⟨lab, rem⟩ := labrem
    rw [hml] at h
    simp only at h
    by_cases he : (dotLabels rem.length rem).1.isEmpty = true
    · rw [if_pos he] at h; exact absurd h (by simp)
    · rw [if_neg he] at h
      obtain rfl : lab ++ (dotLabels rem.length rem).1 = core := Option.some.inj h
      obtain ⟨hlabne, hlab⟩ := matchLabel_spec hml
      obtain ⟨hall, hdot⟩ := dotLabels_spec rem.length rem
      have hstep : (dotLabels rem.length rem).1 ≠ [] := by
        intro hnil; rw [hnil] at he; exact he rfl
      refine ⟨?_, ?_, ?_⟩
      · intro hnil
        exact hlabne (List.append_eq_nil.mp hnil).1
      · intro c hc
        rcases List.mem_append.mp hc with hc | hc
        · exact Or.inl (hlab c hc)
        · exact hall c hc
      · rcases hdot with hnil | ⟨c, hc, h46⟩
        · exact absurd hnil hstep
        · exact ⟨c, List.mem_append_right lab hc, h46⟩

theorem orElse_eq_some {α : Type} {o : Option α} {f : Unit → Option α} {x : α}
    (h : o.orElse f = some x) : o = some x ∨ f () = some x := by
  cases o with
  | none => exact Or.inr h
  | some a => exact Or.inl h

theorem tryFallbackAt_spec {cs core : List Char}
    (h : tryFallbackAt cs = some core) :
    ∃ ds, matchDomainCore ds = some core := by
  have attempt_spec : ∀ (ds : List Char),
      ((match dropWww ds with
        | some tail => matchDomainCore tail
        | none => none).orElse (fun _ => matchDomainCore ds)) = some core →
      ∃ es, matchDomainCore es = some core := by
    intro ds hds
    rcases orElse_eq_some hds with h1 | h1
    · cases hw : dropWww ds with
      | none => rw [hw] at h1; exact absurd h1 (by simp)
      | some tail => rw [hw] at h1; exact ⟨tail, h1⟩
    · exact ⟨ds, h1⟩
  simp only [tryFallbackAt] at h
  cases hds : dropScheme cs with
  | none =>
    rw [hds] at h
    exact attempt_spec cs h
  | some rest =>
    rw [hds] at h
    rcases orElse_eq_some h with h1 | h1
    · exact attempt_spec rest h1
    · exact attempt_spec cs h1

theorem scanFallback_spec : ∀ {cs core : List Char},
    scanFallback cs = some core → ∃ ds, matchDomainCore ds = some core := by
  intro cs
  induction cs with
  | nil => intro core h; simp [scanFallback] at h
  | cons c rest ih =>
    intro core h
    simp only [scanFallback] at h
    rcases orElse_eq_some h with h1 | h1
    · exact tryFallbackAt_spec h1
    · exact ih h1

theorem fallbackExtract_spec {u d : String}
    (h : fallbackExtract u = some d) :
    d.data ≠ [] ∧ (∀ c ∈ d.data, hostChar c = true) ∧ ∃ c ∈ d.data, c.toNat = 46 := by
  unfold fallbackExtract at h
  cases hscan : scanFallback u.data with
  | none => rw [hscan] at h; exact absurd h (by simp)
  | some core =>
    rw [hscan] at h
    obtain rfl : String.mk (core.map charToLower) = d := Option.some.inj h
    obtain ⟨ds, hds⟩ := scanFallback_spec hscan
    obtain ⟨hne, hall, c0, hc0, h46⟩ := matchDomainCore_spec hds
    refine ⟨?_, ?_, ?_⟩
    · intro hnil
      dsimp only at hnil
      exact hne (List.map_eq_nil.mp hnil)
    · intro x hx
      dsimp only at hx
      obtain ⟨c, hc, rfl⟩ := List.mem_map.mp hx
      rcases hall c hc with hl | h46c
      · exact hostChar_of_labelChar hl
      · exact hostChar_of_dot46 h46c
    · refine ⟨charToLower c0, ?_, toNat_charToLower_of_dot46 h46⟩
      dsimp only
      exact List.mem_map_of_mem charToLower hc0

theorem ne_nil_of_isEmpty_false {cs : List Char} (h : cs.isEmpty = false) :
    cs ≠ [] := by
  cases cs with
  | nil => simp at h
  | cons a l => simp

theorem normalizeDomain_goodHost {s d : String}
    (h : normalizeDomain (some s) = some d) :
    d.data ≠ [] ∧ (∀ c ∈ d.data, hostChar c = true) ∧ d ≠ "localhost" := by
  simp only [normalizeDomain] at h
  by_cases h0 : (s.data.isEmpty || (trimList s.data).isEmpty) = true
  · rw [if_pos h0] at h
    exact absurd h (by simp)
  rw [if_neg h0] at h
  generalize (if (dropScheme (trimList s.data)).isSome = true then trimList s.data
    else ('h' :: 't' :: 't' :: 'p' :: 's' :: ':' :: '/' :: '/' :: trimList s.data)) = cu at h
  cases hh : urlHostname (String.mk cu) with
  | some hostname =>
    rw [hh] at h
    simp only at h
    obtain ⟨hne, hall⟩ := urlHostname_spec hh
    generalize hstr : (if startsWithList ['w','w','w','.'] hostname.data = true then
      String.mk (hostname.data.drop 4) else hostname) = str at h
    by_cases hcond : (str.data.isEmpty || decide (str = "localhost")) = true
    · rw [if_pos hcond] at h
      exact absurd h (by simp)
    · rw [if_neg hcond] at h
      obtain rfl : str = d := Option.some.inj h
      simp only [Bool.or_eq_true, decide_eq_true_eq] at hcond
      push_neg at hcond
      have hstrall : ∀ c ∈ str.data, hostChar c = true := by
        rw [← hstr]
        by_cases hw : startsWithList ['w','w','w','.'] hostname.data = true
        · rw [if_pos hw]
          intro c hc
          exact hall c (List.drop_subset 4 hostname.data hc)
        · rw [if_neg hw]
          exact hall
      exact ⟨ne_nil_of_isEmpty_false (Bool.not_eq_true _ ▸ hcond.1),
        hstrall, hcond.2⟩
  | none =>
    rw [hh] at h
    simp only at h
    obtain ⟨hne, hall, c, hc, h46⟩ := fallbackExtract_spec h
    refine ⟨hne, hall, ?_⟩
    intro hloc
    rw [hloc] at hc
    have : ∀ x ∈ ("localhost" : String).data, x.toNat ≠ 46 := by decide
    exact this c hc h46

/-- C6 counterexample: `"www.www.example.com"` is a valid URL-like input
with non-null output `"www.example.com"`, but re-normalizing that output
strips a second `www.` and yields `"example.com"` — `normalizeDomain` is not
idempotent on it. -/
theorem normalizeDomain_not_idempotent_cex :
    normalizeDomain (some "www.www.example.com") = some "www.example.com" ∧
    normalizeDomain (some "www.example.com") ≠ some "www.example.com" := by
  constructor
  · decide
  · decide

/-- C6 (amended): `normalizeDomain` is idempotent on every non-null output
that does not itself begin with `www.` — for any input `s` with
`normalizeDomain s = some d` and `d` not starting with `www.`,
`normalizeDomain d = some d`.  (Outputs starting with `www.` arise only from
hosts with a doubled `www.` prefix and get stripped again, as the
counterexample shows.) -/
theorem normalizeDomain_idempotent_unless_www (s d : String)
    (h : normalizeDomain (some s) = some d)
    (hwww : startsWithList ['w', 'w', 'w', '.'] d.data = false) :
    normalizeDomain (some d) = some d := by
  obtain ⟨hne, hall, hloc⟩ := normalizeDomain_goodHost h
  exact normalizeDomain_fix hne hall hloc hwww

/-- Witness for C6 (amended) at a concrete URL. -/
theorem normalizeDomain_idempotent_unless_www_witness :
    normalizeDomain (some "https://www.Example.com/path") = some "example.com" ∧
    startsWithList ['w', 'w', 'w', '.'] ("example.com" : String).data = false ∧
    normalizeDomain (some "example.com") = some "example.com" :=
  ⟨by decide, by decide,
    normalizeDomain_idempotent_unless_www "https://www.Example.com/path" "example.com"
      (by decide) (by decide)⟩

end LLFA
